import Mathlib

set_option autoImplicit false
set_option maxRecDepth 100000

namespace SchemaApp

/-! # Shallow embedding of `app.py` (Schema-Data-Generator)

The core of the repository is three pure functions in `src/app.py`:
`parse_faq_input`, `generate_json_ld`, `generate_microdata`, plus the
helper `escape_html`.  Python strings are modelled as Lean `String`
(lists of code points, matching Python's code-point indexing); the
Python `str` methods used by the source (`strip`, `split`, `upper`,
`startswith`, slicing, `replace`) are modelled below over `List Char`.
ASCII case mapping and ASCII whitespace suffice for every claim, which
only involve the ASCII marker characters the source tests for. -/

/-- Characters removed by Python `str.strip()` (the ASCII whitespace set). -/
def isPySpace (c : Char) : Bool :=
  c = ' ' || c = '\t' || c = '\n' || c = '\r' || c = '\x0b' || c = '\x0c'

/-- Python `str.strip()` on the underlying character list. -/
def pyStripList (cs : List Char) : List Char :=
  ((cs.dropWhile isPySpace).reverse.dropWhile isPySpace).reverse

/-- Python `text.strip()`. -/
def pyStrip (s : String) : String :=
  ⟨pyStripList s.data⟩

/-- Python `str.split` with the two-character separator `"\n\n"`:
left-to-right, non-overlapping cuts.  `cur` holds the reversed chunk
read since the last cut. -/
def splitBlankAux : List Char → List Char → List (List Char)
  | [], cur => [cur.reverse]
  | [c], cur => [(c :: cur).reverse]
  | c1 :: c2 :: rest, cur =>
    if c1 = '\n' ∧ c2 = '\n' then cur.reverse :: splitBlankAux rest []
    else splitBlankAux (c2 :: rest) (c1 :: cur)

/-- Python `input_text.split("\n\n")`. -/
def pySplitBlank (s : String) : List String :=
  (splitBlankAux s.data []).map fun cs => ⟨cs⟩

/-- Python `str.split` with separator `"\n"`. -/
def splitLinesAux : List Char → List Char → List (List Char)
  | [], cur => [cur.reverse]
  | c :: rest, cur =>
    if c = '\n' then cur.reverse :: splitLinesAux rest []
    else splitLinesAux rest (c :: cur)

/-- Python `sec.split("\n")`. -/
def pySplitLines (s : String) : List String :=
  (splitLinesAux s.data []).map fun cs => ⟨cs⟩

/-- Python `str.upper()` (`Char.toUpper` is the ASCII mapping; no
non-ASCII character upper-cases to `Q`, `A` or `:`, so the `startswith`
tests below agree with Python on all inputs). -/
def pyUpper (s : String) : String :=
  ⟨s.data.map Char.toUpper⟩

/-- Python `s.startswith(p)`. -/
def pyStartsWith (s p : String) : Bool :=
  p.data.isPrefixOf s.data

/-- Python `s[n:]` (code-point slicing). -/
def pyDropStr (s : String) (n : Nat) : String :=
  ⟨s.data.drop n⟩

/-! ## `parse_faq_input` (app.py lines 283-307) -/

/-- One extracted FAQ entry, Python `{'question': ..., 'answer': ...}`. -/
structure FAQItem where
  question : String
  answer : String
deriving DecidableEq, Repr

/-- Body of the `for line in lines` loop of `parse_faq_input`, acting on
the `(question, answer)` accumulator pair.  Python string truthiness is
non-emptiness. -/
def scanLine (acc : String × String) (line : String) : String × String :=
  let t := pyStrip line
  if pyStartsWith (pyUpper t) "Q:" then (pyStrip (pyDropStr t 2), acc.2)
  else if pyStartsWith (pyUpper t) "A:" then (acc.1, pyStrip (pyDropStr t 2))
  else if acc.1 ≠ "" ∧ acc.2 = "" then (acc.1 ++ " " ++ t, acc.2)
  else if acc.2 ≠ "" then (acc.1, acc.2 ++ " " ++ t)
  else acc

/-- Scan of one blank-line-separated block: `lines = sec.strip().split('\n')`
followed by the line loop with both accumulators empty. -/
def scanBlock (sec : String) : String × String :=
  (pySplitLines (pyStrip sec)).foldl scanLine ("", "")

/-- The function `parse_faq_input` from `app.py`: split the stripped input on blank
lines, scan each block, and append `{question, answer}` exactly when both
accumulators end non-empty. -/
def parse_faq_input (input_text : String) : List FAQItem :=
  (pySplitBlank (pyStrip input_text)).foldl
    (fun faqs sec =>
      let qa := scanBlock sec
      if qa.1 ≠ "" ∧ qa.2 ≠ "" then faqs ++ [⟨qa.1, qa.2⟩] else faqs)
    []

/-! ## JSON-like values

Python dict/list/str data, as passed to the two generators.  The claims
only exercise string leaves, so numbers (which the generators never
introduce themselves) are not modelled. -/

inductive Value where
  | vstr : String → Value
  | vlist : List Value → Value
  | vobj : List (String × Value) → Value

/-- A Python dict with string keys. -/
abbrev Dict := List (String × Value)

/-- Python `d[k]`: `KeyError` on a missing key is modelled as `none`. -/
def dictFind (d : Dict) (k : String) : Option Value :=
  match d with
  | [] => none
  | (k', v) :: rest => if k' = k then some v else dictFind rest k

/-- Python `d.get(k, default)`. -/
def dictGetD (d : Dict) (k : String) (v : Value) : Value :=
  (dictFind d k).getD v

/-- Python `d.get(k, {})` followed by `.get` on the result: calling `.get`
on a non-dict value raises `AttributeError`, modelled as `none`. -/
def dictGetObj (d : Dict) (k : String) : Option Dict :=
  match dictGetD d k (.vobj []) with
  | .vobj o => some o
  | _ => none

/-- Python `d.get(k, [])` followed by iteration over the entries of the
result; a non-list value there makes the loop body fail, modelled as
`none`. -/
def dictGetList (d : Dict) (k : String) : Option (List Value) :=
  match dictGetD d k (.vlist []) with
  | .vlist l => some l
  | _ => none

/-- Python `item[k]` whose result is substituted into a string (f-string
or `escape_html`): requires `item` to be a dict holding a string at `k`;
a missing key (`KeyError`) or a non-string value (`AttributeError` in
`escape_html`; non-string canonical values are outside the claims'
domain) is `none`. -/
def itemStr (it : Value) (k : String) : Option String :=
  match it with
  | .vobj o =>
    match dictFind o k with
    | some (.vstr s) => some s
    | _ => none
  | _ => none

/-- Python `item[k]` used directly as a JSON value. -/
def itemVal (it : Value) (k : String) : Option Value :=
  match it with
  | .vobj o => dictFind o k
  | _ => none

/-- Python `d.get(k, default)` whose result is substituted into an
f-string or into `escape_html` (string required, as in `itemStr`). -/
def dictGetStr (d : Dict) (k : String) (dflt : String) : Option String :=
  match dictGetD d k (.vstr dflt) with
  | .vstr s => some s
  | _ => none

/-- Application of `escape_html` to a bare list element: requires a string. -/
def strOf : Value → Option String
  | .vstr s => some s
  | _ => none

/-! ## `generate_json_ld` (app.py lines 309-453)

One builder per entry of the Python `schemas` dict literal. -/

/-- One entry of the FAQPage `mainEntity` list comprehension
(direct indexing `item['question']`, `item['answer']`). -/
def faqEntry (it : Value) : Option Value := do
  let q ← itemVal it "question"
  let a ← itemVal it "answer"
  pure (.vobj [("@type", .vstr "Question"), ("name", q),
    ("acceptedAnswer", .vobj [("@type", .vstr "Answer"), ("text", a)])])

def buildFAQ (data : Dict) : Option Value := do
  let items ← dictGetList data "mainEntity"
  let ents ← items.mapM faqEntry
  pure (.vobj [("@context", .vstr "https://schema.org"),
    ("@type", .vstr "FAQPage"), ("mainEntity", .vlist ents)])

def buildArticle (data : Dict) : Option Value :=
  some (.vobj [
    ("@context", .vstr "https://schema.org"),
    ("@type", .vstr "Article"),
    ("headline", dictGetD data "headline" (.vstr "")),
    ("author", .vobj [("@type", .vstr "Person"),
      ("name", dictGetD data "author" (.vstr ""))]),
    ("datePublished", dictGetD data "datePublished" (.vstr "")),
    ("dateModified", dictGetD data "dateModified" (.vstr "")),
    ("description", dictGetD data "description" (.vstr "")),
    ("articleBody", dictGetD data "articleBody" (.vstr "")),
    ("image", dictGetD data "image" (.vstr ""))])

def buildProduct (data : Dict) : Option Value := do
  let offers ← dictGetObj data "offers"
  let avail ← dictGetStr offers "availability" "InStock"
  let rating ← dictGetObj data "aggregateRating"
  pure (.vobj [
    ("@context", .vstr "https://schema.org"),
    ("@type", .vstr "Product"),
    ("name", dictGetD data "name" (.vstr "")),
    ("description", dictGetD data "description" (.vstr "")),
    ("image", dictGetD data "image" (.vstr "")),
    ("brand", .vobj [("@type", .vstr "Brand"),
      ("name", dictGetD data "brand" (.vstr ""))]),
    ("offers", .vobj [("@type", .vstr "Offer"),
      ("price", dictGetD offers "price" (.vstr "0.00")),
      ("priceCurrency", dictGetD offers "priceCurrency" (.vstr "USD")),
      ("availability", .vstr ("https://schema.org/" ++ avail))]),
    ("aggregateRating", .vobj [("@type", .vstr "AggregateRating"),
      ("ratingValue", dictGetD rating "ratingValue" (.vstr "0.0")),
      ("reviewCount", dictGetD rating "reviewCount" (.vstr "0"))])])

/-- One entry of the Breadcrumb `itemListElement` list comprehension
(direct indexing of `position`, `name`, `item`). -/
def breadcrumbEntry (it : Value) : Option Value := do
  let pos ← itemVal it "position"
  let nm ← itemVal it "name"
  let itm ← itemVal it "item"
  pure (.vobj [("@type", .vstr "ListItem"), ("position", pos),
    ("name", nm), ("item", itm)])

def buildBreadcrumb (data : Dict) : Option Value := do
  let items ← dictGetList data "itemListElement"
  let ents ← items.mapM breadcrumbEntry
  pure (.vobj [("@context", .vstr "https://schema.org"),
    ("@type", .vstr "BreadcrumbList"), ("itemListElement", .vlist ents)])

def buildLocalBusiness (data : Dict) : Option Value := do
  let addr ← dictGetObj data "address"
  pure (.vobj [
    ("@context", .vstr "https://schema.org"),
    ("@type", .vstr "LocalBusiness"),
    ("name", dictGetD data "name" (.vstr "")),
    ("description", dictGetD data "description" (.vstr "")),
    ("image", dictGetD data "image" (.vstr "")),
    ("address", .vobj [("@type", .vstr "PostalAddress"),
      ("streetAddress", dictGetD addr "streetAddress" (.vstr "")),
      ("addressLocality", dictGetD addr "addressLocality" (.vstr "")),
      ("addressRegion", dictGetD addr "addressRegion" (.vstr "")),
      ("postalCode", dictGetD addr "postalCode" (.vstr "")),
      ("addressCountry", dictGetD addr "addressCountry" (.vstr ""))]),
    ("telephone", dictGetD data "telephone" (.vstr "")),
    ("openingHours", dictGetD data "openingHours" (.vstr "")),
    ("priceRange", dictGetD data "priceRange" (.vstr ""))])

/-- One entry of the HowTo `step` / Recipe `recipeInstructions` list
comprehensions (direct indexing of `name`, `text`). -/
def stepEntry (st : Value) : Option Value := do
  let nm ← itemVal st "name"
  let tx ← itemVal st "text"
  pure (.vobj [("@type", .vstr "HowToStep"), ("name", nm), ("text", tx)])

def buildHowTo (data : Dict) : Option Value := do
  let steps ← dictGetList data "step"
  let ents ← steps.mapM stepEntry
  pure (.vobj [
    ("@context", .vstr "https://schema.org"),
    ("@type", .vstr "HowTo"),
    ("name", dictGetD data "name" (.vstr "")),
    ("description", dictGetD data "description" (.vstr "")),
    ("totalTime", dictGetD data "totalTime" (.vstr "")),
    ("step", .vlist ents)])

def buildRecipe (data : Dict) : Option Value := do
  let instrs ← dictGetList data "recipeInstructions"
  let ents ← instrs.mapM stepEntry
  pure (.vobj [
    ("@context", .vstr "https://schema.org"),
    ("@type", .vstr "Recipe"),
    ("name", dictGetD data "name" (.vstr "")),
    ("description", dictGetD data "description" (.vstr "")),
    ("image", dictGetD data "image" (.vstr "")),
    ("author", .vobj [("@type", .vstr "Person"),
      ("name", dictGetD data "author" (.vstr ""))]),
    ("prepTime", dictGetD data "prepTime" (.vstr "")),
    ("cookTime", dictGetD data "cookTime" (.vstr "")),
    ("totalTime", dictGetD data "totalTime" (.vstr "")),
    ("recipeYield", dictGetD data "recipeYield" (.vstr "")),
    ("recipeIngredient", dictGetD data "recipeIngredient" (.vlist [])),
    ("recipeInstructions", .vlist ents)])

def buildPerson (data : Dict) : Option Value := do
  let addr ← dictGetObj data "address"
  pure (.vobj [
    ("@context", .vstr "https://schema.org"),
    ("@type", .vstr "Person"),
    ("name", dictGetD data "name" (.vstr "")),
    ("jobTitle", dictGetD data "jobTitle" (.vstr "")),
    ("description", dictGetD data "description" (.vstr "")),
    ("image", dictGetD data "image" (.vstr "")),
    ("url", dictGetD data "url" (.vstr "")),
    ("email", dictGetD data "email" (.vstr "")),
    ("telephone", dictGetD data "telephone" (.vstr "")),
    ("address", .vobj [("@type", .vstr "PostalAddress"),
      ("addressLocality", dictGetD addr "addressLocality" (.vstr "")),
      ("addressRegion", dictGetD addr "addressRegion" (.vstr "")),
      ("addressCountry", dictGetD addr "addressCountry" (.vstr ""))])])

/-- The function `generate_json_ld` from `app.py`.  The Python `schemas` dict literal
is evaluated eagerly: every branch (including every list comprehension
inside it) runs before `schemas.get(schema_type, schemas["FAQPage"])`
selects one, so a key error in any branch aborts the whole call whatever
`schema_type` is.  The final `json.dumps(schema, indent=2)` serialization
is not modelled; the claims about the output concern the fields of the
document and are stated on the document object itself. -/
def generate_json_ld (data : Dict) (schema_type : String) : Option Value := do
  let sFAQ ← buildFAQ data
  let sArticle ← buildArticle data
  let sProduct ← buildProduct data
  let sBreadcrumb ← buildBreadcrumb data
  let sLocal ← buildLocalBusiness data
  let sHowTo ← buildHowTo data
  let sRecipe ← buildRecipe data
  let sPerson ← buildPerson data
  let schemas : Dict := [
    ("FAQPage", sFAQ), ("Article", sArticle), ("Product", sProduct),
    ("Breadcrumb", sBreadcrumb), ("LocalBusiness", sLocal),
    ("HowTo", sHowTo), ("Recipe", sRecipe), ("Person", sPerson)]
  pure ((dictFind schemas schema_type).getD sFAQ)

/-! ## `escape_html` (app.py lines 455-462) -/

/-- Python `str.replace` with a single-character pattern. -/
def replaceChar (c : Char) (repl : List Char) (cs : List Char) : List Char :=
  cs.flatMap fun x => if x = c then repl else [x]

/-- The five chained `str.replace` calls of `escape_html` on the
character list, in source order, ampersand innermost (first). -/
def escListChain (cs : List Char) : List Char :=
  replaceChar '\'' "&#39;".data
    (replaceChar '"' "&quot;".data
      (replaceChar '>' "&gt;".data
        (replaceChar '<' "&lt;".data
          (replaceChar '&' "&amp;".data cs))))

/-- The function `escape_html` from `app.py`. -/
def escape_html (text : String) : String :=
  ⟨escListChain text.data⟩

/-! ## `generate_microdata` (app.py lines 464-570)

Each Python branch accumulates `html` with `+=`; the loops are modelled
by `List.foldlM` over `Option` (the loop bodies index the entries
directly and can raise). -/

/-- Loop body of the FAQPage branch. -/
def microFAQItem (it : Value) : Option String := do
  let q ← itemStr it "question"
  let a ← itemStr it "answer"
  pure ("  <div itemscope itemprop=\"mainEntity\" itemtype=\"https://schema.org/Question\">\n"
    ++ "    <h3 itemprop=\"name\">" ++ escape_html q ++ "</h3>\n"
    ++ "    <div itemscope itemprop=\"acceptedAnswer\" itemtype=\"https://schema.org/Answer\">\n"
    ++ "      <div itemprop=\"text\">" ++ escape_html a ++ "</div>\n"
    ++ "    </div>\n"
    ++ "  </div>\n")

/-- One iteration of the FAQPage `for item in ...` loop: index the item
and extend the accumulated `html`. -/
def faqLoopBody (acc : String) (it : Value) : Option String := do
  let chunk ← microFAQItem it
  pure (acc ++ chunk)

def microFAQ (data : Dict) : Option String := do
  let items ← dictGetList data "mainEntity"
  let body ← items.foldlM faqLoopBody
    "<div itemscope itemtype=\"https://schema.org/FAQPage\">\n"
  pure (body ++ "</div>")

/-- The Article branch: `datePublished` and `dateModified` go into
`meta content` attributes WITHOUT `escape_html` (lines 483-484). -/
def microArticle (data : Dict) : Option String := do
  let headline ← dictGetStr data "headline" ""
  let author ← dictGetStr data "author" ""
  let dp ← dictGetStr data "datePublished" ""
  let dm ← dictGetStr data "dateModified" ""
  let desc ← dictGetStr data "description" ""
  let body ← dictGetStr data "articleBody" ""
  pure ("<article itemscope itemtype=\"https://schema.org/Article\">\n"
    ++ "  <h1 itemprop=\"headline\">" ++ escape_html headline ++ "</h1>\n"
    ++ "  <div itemprop=\"author\" itemscope itemtype=\"https://schema.org/Person\">\n"
    ++ "    <span itemprop=\"name\">" ++ escape_html author ++ "</span>\n"
    ++ "  </div>\n"
    ++ "  <meta itemprop=\"datePublished\" content=\"" ++ dp ++ "\">\n"
    ++ "  <meta itemprop=\"dateModified\" content=\"" ++ dm ++ "\">\n"
    ++ "  <div itemprop=\"description\">" ++ escape_html desc ++ "</div>\n"
    ++ "  <div itemprop=\"articleBody\">" ++ escape_html body ++ "</div>\n"
    ++ "</article>")

/-- The Product branch: `price` and `priceCurrency` are inserted raw
(lines 497-498). -/
def microProduct (data : Dict) : Option String := do
  let nm ← dictGetStr data "name" ""
  let desc ← dictGetStr data "description" ""
  let brand ← dictGetStr data "brand" ""
  let offers ← dictGetObj data "offers"
  let price ← dictGetStr offers "price" "0.00"
  let cur ← dictGetStr offers "priceCurrency" "USD"
  pure ("<div itemscope itemtype=\"https://schema.org/Product\">\n"
    ++ "  <h1 itemprop=\"name\">" ++ escape_html nm ++ "</h1>\n"
    ++ "  <div itemprop=\"description\">" ++ escape_html desc ++ "</div>\n"
    ++ "  <div itemprop=\"brand\" itemscope itemtype=\"https://schema.org/Brand\">\n"
    ++ "    <span itemprop=\"name\">" ++ escape_html brand ++ "</span>\n"
    ++ "  </div>\n"
    ++ "  <div itemprop=\"offers\" itemscope itemtype=\"https://schema.org/Offer\">\n"
    ++ "    <span itemprop=\"price\">" ++ price ++ "</span>\n"
    ++ "    <meta itemprop=\"priceCurrency\" content=\"" ++ cur ++ "\">\n"
    ++ "  </div>\n"
    ++ "</div>")

/-- Loop body of the Breadcrumb branch: `item` and `name` are escaped,
`position` is inserted raw into the `meta content` attribute (509). -/
def microBreadcrumbItem (it : Value) : Option String := do
  let itm ← itemStr it "item"
  let nm ← itemStr it "name"
  let pos ← itemStr it "position"
  pure ("  <li itemprop=\"itemListElement\" itemscope itemtype=\"https://schema.org/ListItem\">\n"
    ++ "    <a itemprop=\"item\" href=\"" ++ escape_html itm ++ "\">\n"
    ++ "      <span itemprop=\"name\">" ++ escape_html nm ++ "</span>\n"
    ++ "    </a>\n"
    ++ "    <meta itemprop=\"position\" content=\"" ++ pos ++ "\">\n"
    ++ "  </li>\n")

def microBreadcrumb (data : Dict) : Option String := do
  let items ← dictGetList data "itemListElement"
  let body ← items.foldlM (fun acc it => do
      let chunk ← microBreadcrumbItem it
      pure (acc ++ chunk))
    "<ol itemscope itemtype=\"https://schema.org/BreadcrumbList\">\n"
  pure (body ++ "</ol>")

def microLocalBusiness (data : Dict) : Option String := do
  let nm ← dictGetStr data "name" ""
  let desc ← dictGetStr data "description" ""
  let addr ← dictGetObj data "address"
  let street ← dictGetStr addr "streetAddress" ""
  let loc ← dictGetStr addr "addressLocality" ""
  let region ← dictGetStr addr "addressRegion" ""
  let postal ← dictGetStr addr "postalCode" ""
  let tel ← dictGetStr data "telephone" ""
  pure ("<div itemscope itemtype=\"https://schema.org/LocalBusiness\">\n"
    ++ "  <h1 itemprop=\"name\">" ++ escape_html nm ++ "</h1>\n"
    ++ "  <div itemprop=\"description\">" ++ escape_html desc ++ "</div>\n"
    ++ "  <div itemprop=\"address\" itemscope itemtype=\"https://schema.org/PostalAddress\">\n"
    ++ "    <span itemprop=\"streetAddress\">" ++ escape_html street ++ "</span>,\n"
    ++ "    <span itemprop=\"addressLocality\">" ++ escape_html loc ++ "</span>,\n"
    ++ "    <span itemprop=\"addressRegion\">" ++ escape_html region ++ "</span>\n"
    ++ "    <span itemprop=\"postalCode\">" ++ escape_html postal ++ "</span>\n"
    ++ "  </div>\n"
    ++ "  <div itemprop=\"telephone\">" ++ escape_html tel ++ "</div>\n"
    ++ "</div>")

def microHowToStep (st : Value) : Option String := do
  let nm ← itemStr st "name"
  let tx ← itemStr st "text"
  pure ("    <li itemprop=\"step\" itemscope itemtype=\"https://schema.org/HowToStep\">\n"
    ++ "      <strong itemprop=\"name\">" ++ escape_html nm ++ "</strong>: \n"
    ++ "      <span itemprop=\"text\">" ++ escape_html tx ++ "</span>\n"
    ++ "    </li>\n")

def microHowTo (data : Dict) : Option String := do
  let nm ← dictGetStr data "name" ""
  let desc ← dictGetStr data "description" ""
  let steps ← dictGetList data "step"
  let body ← steps.foldlM (fun acc st => do
      let chunk ← microHowToStep st
      pure (acc ++ chunk))
    ("<div itemscope itemtype=\"https://schema.org/HowTo\">\n"
      ++ "  <h1 itemprop=\"name\">" ++ escape_html nm ++ "</h1>\n"
      ++ "  <div itemprop=\"description\">" ++ escape_html desc ++ "</div>\n"
      ++ "  <ol>\n")
  pure (body ++ "  </ol>\n" ++ "</div>")

def microRecipe (data : Dict) : Option String := do
  let nm ← dictGetStr data "name" ""
  let desc ← dictGetStr data "description" ""
  let author ← dictGetStr data "author" ""
  let ingredients ← dictGetList data "recipeIngredient"
  let body1 ← ingredients.foldlM (fun acc ing => do
      let s ← strOf ing
      pure (acc ++ "    <li itemprop=\"recipeIngredient\">" ++ escape_html s ++ "</li>\n"))
    ("<div itemscope itemtype=\"https://schema.org/Recipe\">\n"
      ++ "  <h1 itemprop=\"name\">" ++ escape_html nm ++ "</h1>\n"
      ++ "  <div itemprop=\"description\">" ++ escape_html desc ++ "</div>\n"
      ++ "  <div itemprop=\"author\" itemscope itemtype=\"https://schema.org/Person\">\n"
      ++ "    <span itemprop=\"name\">" ++ escape_html author ++ "</span>\n"
      ++ "  </div>\n"
      ++ "  <div>Ingredients:</div>\n"
      ++ "  <ul>\n")
  let steps ← dictGetList data "recipeInstructions"
  let body2 ← steps.foldlM (fun acc st => do
      let tx ← itemStr st "text"
      pure (acc
        ++ "    <li itemprop=\"recipeInstructions\" itemscope itemtype=\"https://schema.org/HowToStep\">\n"
        ++ "      <span itemprop=\"text\">" ++ escape_html tx ++ "</span>\n"
        ++ "    </li>\n"))
    (body1 ++ "  </ul>\n" ++ "  <div>Instructions:</div>\n" ++ "  <ol>\n")
  pure (body2 ++ "  </ol>\n" ++ "</div>")

def microPerson (data : Dict) : Option String := do
  let nm ← dictGetStr data "name" ""
  let job ← dictGetStr data "jobTitle" ""
  let desc ← dictGetStr data "description" ""
  let email ← dictGetStr data "email" ""
  let tel ← dictGetStr data "telephone" ""
  pure ("<div itemscope itemtype=\"https://schema.org/Person\">\n"
    ++ "  <h1 itemprop=\"name\">" ++ escape_html nm ++ "</h1>\n"
    ++ "  <div itemprop=\"jobTitle\">" ++ escape_html job ++ "</div>\n"
    ++ "  <div itemprop=\"description\">" ++ escape_html desc ++ "</div>\n"
    ++ "  <div itemprop=\"email\">" ++ escape_html email ++ "</div>\n"
    ++ "  <div itemprop=\"telephone\">" ++ escape_html tel ++ "</div>\n"
    ++ "</div>")

/-- The function `generate_microdata` from `app.py`: an `if/elif` chain on
`schema_type`; only the selected branch runs and the final `else`
returns the fallback literal without touching `data`. -/
def generate_microdata (data : Dict) (schema_type : String) : Option String :=
  if schema_type = "FAQPage" then microFAQ data
  else if schema_type = "Article" then microArticle data
  else if schema_type = "Product" then microProduct data
  else if schema_type = "Breadcrumb" then microBreadcrumb data
  else if schema_type = "LocalBusiness" then microLocalBusiness data
  else if schema_type = "HowTo" then microHowTo data
  else if schema_type = "Recipe" then microRecipe data
  else if schema_type = "Person" then microPerson data
  else some "Microdata not available for this schema type"

/-! ## Statement-side definitions

Vocabulary used to state the claims: input builders for well-formed
`Q:`/`A:` inputs, the value-extraction functions of the round-trip
property test, and the per-character specification of `escape_html`. -/

/-- Text fit to appear as the captured remainder of one parsed line:
non-empty, newline-free, and already stripped. -/
def goodText (s : String) : Prop :=
  s ≠ "" ∧ pyStrip s = s ∧ '\n' ∉ s.data

instance goodText_decidable (s : String) : Decidable (goodText s) := by
  unfold goodText
  infer_instance

/-- One well-formed FAQ block: a `Q:` line then an `A:` line, each
marker optionally lowercase. -/
structure BlockSpec where
  lowerQ : Bool
  lowerA : Bool
  q : String
  a : String

def qLine (b : BlockSpec) : String :=
  (if b.lowerQ then "q: " else "Q: ") ++ b.q

def aLine (b : BlockSpec) : String :=
  (if b.lowerA then "a: " else "A: ") ++ b.a

def mkBlock (b : BlockSpec) : String :=
  qLine b ++ "\n" ++ aLine b

/-- Lines joined by single newlines (one block). -/
def joinLines : List String → String
  | [] => ""
  | [l] => l
  | l :: l2 :: rest => l ++ "\n" ++ joinLines (l2 :: rest)

/-- Blocks joined by blank lines (a whole input). -/
def mkInput : List String → String
  | [] => ""
  | [bl] => bl
  | bl :: b2 :: rest => bl ++ "\n\n" ++ mkInput (b2 :: rest)

/-- What one scanned block contributes to the parser's output. -/
def blockResult (sec : String) : List FAQItem :=
  let qa := scanBlock sec
  if qa.1 ≠ "" ∧ qa.2 ≠ "" then [⟨qa.1, qa.2⟩] else []

/-- The number of blank-line-separated blocks the parser scans. -/
def numBlocks (input_text : String) : Nat :=
  (pySplitBlank (pyStrip input_text)).length

/-- The lines of a single block holding several `Q:`/`A:` pairs. -/
def qaLines (pairs : List (String × String)) : List String :=
  pairs.flatMap fun p => ["Q: " ++ p.1, "A: " ++ p.2]

/-- Per-character specification of the net effect of `escape_html`:
each of the five special characters becomes its reference, every other
character is untouched, in one single pass. -/
def escCharSpec (c : Char) : List Char :=
  if c = '&' then "&amp;".data
  else if c = '<' then "&lt;".data
  else if c = '>' then "&gt;".data
  else if c = '"' then "&quot;".data
  else if c = '\'' then "&#39;".data
  else [c]

/-- Field lookup on a JSON document object. -/
def jsonField (doc : Value) (k : String) : Option Value :=
  match doc with
  | .vobj fields => dictFind fields k
  | _ => none

/-- The `mainEntity` list of a canonical FAQ data mapping. -/
def faqItemsVal (pairs : List (String × String)) : List Value :=
  pairs.map fun p => .vobj [("question", .vstr p.1), ("answer", .vstr p.2)]

/-- Canonical FAQ data mapping holding the given question/answer pairs. -/
def faqData (pairs : List (String × String)) : Dict :=
  [("mainEntity", .vlist (faqItemsVal pairs))]

/-- Reading the user field values back out of a FAQPage JSON-LD document,
as the round-trip property test does: per `mainEntity` entry, its `name`
and its `acceptedAnswer.text`. -/
def jsonFAQValues (doc : Value) : Option (List String) :=
  match doc with
  | .vobj fields =>
    match dictFind fields "mainEntity" with
    | some (.vlist ents) => do
      let vss ← ents.mapM fun e => do
        let nm ← itemStr e "name"
        let aa ← itemVal e "acceptedAnswer"
        let tx ← itemStr aa "text"
        pure [nm, tx]
      pure vss.flatten
    | _ => none
  | _ => none

/-- Whitespace as it occurs between the tags of the generated markup. -/
def wsChar (c : Char) : Bool :=
  c = ' ' || c = '\n'

/-- A string with at least one visible (non-whitespace) character. -/
def visibleStr (s : String) : Prop :=
  (s.data.any fun c => !wsChar c) = true

instance visibleStr_decidable (s : String) : Decidable (visibleStr s) := by
  unfold visibleStr
  infer_instance

/-- A string with no markup-delimiter characters. -/
def angleFree (s : String) : Prop :=
  ∀ c ∈ s.data, c ≠ '<' ∧ c ≠ '>'

instance angleFree_decidable (s : String) : Decidable (angleFree s) := by
  unfold angleFree
  infer_instance

/-- One step of the text extractor over the markup encoding: a `>` opens
a text node, a `<` closes it and keeps what was collected, any other
character extends the current text node. -/
def segStep (st : List (List Char) × Option (List Char)) (c : Char) :
    List (List Char) × Option (List Char) :=
  if c = '>' then (st.1, some [])
  else if c = '<' then
    match st.2 with
    | some cs => (st.1 ++ [cs], none)
    | none => (st.1, none)
  else
    match st.2 with
    | some cs => (st.1, some (cs ++ [c]))
    | none => (st.1, none)

/-- Reading the user field values back out of the markup encoding, as
the round-trip property test does: the visible text nodes (the purely
whitespace filler between tags is dropped). -/
def textSegments (s : String) : List String :=
  (((s.data.foldl segStep ([], none)).1).filter
    (fun seg => seg.any fun c => !wsChar c)).map fun cs => ⟨cs⟩

/-- Concatenation of a list of strings. -/
def strJoin : List String → String
  | [] => ""
  | s :: rest => s ++ strJoin rest

/-- Article canonical data with every markup-rendered field present. -/
def articleData (hl au dp dm ds ab : String) : Dict :=
  [("headline", .vstr hl), ("author", .vstr au), ("datePublished", .vstr dp),
   ("dateModified", .vstr dm), ("description", .vstr ds), ("articleBody", .vstr ab)]

/-- Product canonical data with every markup-rendered field present. -/
def productData (nm ds br pr cur : String) : Dict :=
  [("name", .vstr nm), ("description", .vstr ds), ("brand", .vstr br),
   ("offers", .vobj [("price", .vstr pr), ("priceCurrency", .vstr cur)])]

/-- Breadcrumb canonical data holding a single list entry. -/
def breadcrumbData (itm nm pos : String) : Dict :=
  [("itemListElement", .vlist [.vobj [("position", .vstr pos),
    ("name", .vstr nm), ("item", .vstr itm)]])]

/-- The run of the text extractor from a given state, with an empty
collected list. -/
def segRun (cur : Option (List Char)) (xs : List Char) :
    List (List Char) × Option (List Char) :=
  List.foldl segStep ([], cur) xs

/-- The markup chunk one item contributes in the FAQPage branch. -/
def faqChunk (q a : String) : String :=
  "  <div itemscope itemprop=\"mainEntity\" itemtype=\"https://schema.org/Question\">\n"
    ++ "    <h3 itemprop=\"name\">" ++ escape_html q ++ "</h3>\n"
    ++ "    <div itemscope itemprop=\"acceptedAnswer\" itemtype=\"https://schema.org/Answer\">\n"
    ++ "      <div itemprop=\"text\">" ++ escape_html a ++ "</div>\n"
    ++ "    </div>\n"
    ++ "  </div>\n"

/-! ## General helper lemmas -/

theorem strEta (s : String) : (⟨s.data⟩ : String) = s := rfl

theorem map_mk_data (l : List String) :
    l.map ((fun cs => (⟨cs⟩ : String)) ∘ String.data) = l := by
  have hfun : ((fun cs => (⟨cs⟩ : String)) ∘ String.data) = id := by
    funext s
    rfl
  rw [hfun, List.map_id]

theorem obind_congr {α β : Type} {o : Option α} {f g : α → Option β}
    (h : ∀ a, f a = g a) : o >>= f = o >>= g := by
  cases o with
  | none => rfl
  | some a => exact h a

/-! ## `escape_html` lemmas -/

theorem escListChain_append (a b : List Char) :
    escListChain (a ++ b) = escListChain a ++ escListChain b := by
  simp [escListChain, replaceChar]

theorem escListChain_single (c : Char) : escListChain [c] = escCharSpec c := by
  by_cases h1 : c = '&'
  · subst h1; rfl
  by_cases h2 : c = '<'
  · subst h2; rfl
  by_cases h3 : c = '>'
  · subst h3; rfl
  by_cases h4 : c = '"'
  · subst h4; rfl
  by_cases h5 : c = '\''
  · subst h5; rfl
  simp [escListChain, replaceChar, escCharSpec, h1, h2, h3, h4, h5]

theorem escListChain_eq_flatMap (cs : List Char) :
    escListChain cs = cs.flatMap escCharSpec := by
  induction cs with
  | nil => rfl
  | cons c rest ih =>
    have hsplit : c :: rest = [c] ++ rest := rfl
    rw [hsplit, escListChain_append, escListChain_single, ih]
    simp

theorem escape_html_data (s : String) :
    (escape_html s).data = s.data.flatMap escCharSpec := by
  simpa [escape_html] using escListChain_eq_flatMap s.data

theorem escCharSpec_no_angle {x c : Char} (hc : c ∈ escCharSpec x) :
    c ≠ '<' ∧ c ≠ '>' := by
  unfold escCharSpec at hc
  split at hc
  · simp at hc; rcases hc with h | h | h | h | h <;> subst h <;> decide
  split at hc
  · simp at hc; rcases hc with h | h | h | h <;> subst h <;> decide
  split at hc
  · simp at hc; rcases hc with h | h | h | h <;> subst h <;> decide
  split at hc
  · simp at hc; rcases hc with h | h | h | h | h | h <;> subst h <;> decide
  split at hc
  · simp at hc; rcases hc with h | h | h | h | h <;> subst h <;> decide
  · next h1 h2 h3 h4 h5 =>
    simp at hc; subst hc; exact ⟨h2, h3⟩

theorem escape_no_angle (s : String) : ∀ c ∈ (escape_html s).data, c ≠ '<' ∧ c ≠ '>' := by
  intro c hc
  rw [escape_html_data] at hc
  obtain ⟨x, -, hcx⟩ := List.mem_flatMap.mp hc
  exact escCharSpec_no_angle hcx

theorem escCharSpec_visible {x : Char} (hx : wsChar x = false) :
    ∃ c ∈ escCharSpec x, wsChar c = false := by
  unfold escCharSpec
  split
  · exact ⟨'&', by decide, by decide⟩
  split
  · exact ⟨'&', by decide, by decide⟩
  split
  · exact ⟨'&', by decide, by decide⟩
  split
  · exact ⟨'&', by decide, by decide⟩
  split
  · exact ⟨'&', by decide, by decide⟩
  · exact ⟨x, by simp, hx⟩

theorem escape_visible {s : String} (h : visibleStr s) : visibleStr (escape_html s) := by
  unfold visibleStr at h ⊢
  rw [escape_html_data]
  rw [List.any_eq_true] at h ⊢
  obtain ⟨x, hx, hxw⟩ := h
  simp only [Bool.not_eq_true'] at hxw
  obtain ⟨c, hc, hcw⟩ := escCharSpec_visible hxw
  exact ⟨c, List.mem_flatMap.mpr ⟨x, hx, hc⟩, by simp [hcw]⟩

/-! ## Split-function lemmas -/

theorem str_data_ne {s : String} (h : s ≠ "") : s.data ≠ [] := by
  intro hd
  apply h
  cases s with
  | mk d =>
    simp at hd
    subst hd
    rfl

theorem splitLines_walk {xs : List Char} (h : '\n' ∉ xs) :
    ∀ (rest cur : List Char),
      splitLinesAux (xs ++ rest) cur = splitLinesAux rest (xs.reverse ++ cur) := by
  induction xs with
  | nil => intro rest cur; simp
  | cons x t ih =>
    intro rest cur
    have hx : x ≠ '\n' := fun hh => h (hh ▸ List.mem_cons_self x t)
    have ht : '\n' ∉ t := fun hh => h (List.mem_cons_of_mem x hh)
    simp only [List.cons_append, splitLinesAux, if_neg hx, List.append_eq]
    rw [ih ht]
    simp

theorem splitLines_newline (rest cur : List Char) :
    splitLinesAux ('\n' :: rest) cur = cur.reverse :: splitLinesAux rest [] := by
  simp [splitLinesAux]

theorem splitLines_join (ls : List String) (hne : ls ≠ [])
    (h : ∀ l ∈ ls, '\n' ∉ l.data) :
    splitLinesAux (joinLines ls).data [] = ls.map String.data := by
  induction ls with
  | nil => exact absurd rfl hne
  | cons l t ih =>
    cases t with
    | nil =>
      have hw := splitLines_walk (h l (by simp)) [] []
      simpa [joinLines, splitLinesAux] using hw
    | cons l2 t2 =>
      have hl : '\n' ∉ l.data := h l (by simp)
      show splitLinesAux ((l ++ "\n" ++ joinLines (l2 :: t2))).data [] = _
      have hsh : ((l ++ "\n" ++ joinLines (l2 :: t2))).data
          = l.data ++ ('\n' :: (joinLines (l2 :: t2)).data) := by
        simp
      rw [hsh, splitLines_walk hl, splitLines_newline,
        ih (by simp) (fun x hx => h x (by simp [hx]))]
      simp

theorem splitBlank_walk {xs : List Char} (h : '\n' ∉ xs) :
    ∀ (rest cur : List Char),
      splitBlankAux (xs ++ rest) cur = splitBlankAux rest (xs.reverse ++ cur) := by
  induction xs with
  | nil => intro rest cur; simp
  | cons x t ih =>
    intro rest cur
    have hx : x ≠ '\n' := fun hh => h (hh ▸ List.mem_cons_self x t)
    have ht : '\n' ∉ t := fun hh => h (List.mem_cons_of_mem x hh)
    rw [List.cons_append]
    cases htr : t ++ rest with
    | nil =>
      obtain ⟨ht0, hr0⟩ := List.append_eq_nil.mp htr
      subst ht0; subst hr0
      simp [splitBlankAux]
    | cons c2 t2 =>
      have hstep : splitBlankAux (x :: c2 :: t2) cur
          = splitBlankAux (c2 :: t2) (x :: cur) := by
        show (if x = '\n' ∧ c2 = '\n' then cur.reverse :: splitBlankAux t2 []
          else splitBlankAux (c2 :: t2) (x :: cur)) = splitBlankAux (c2 :: t2) (x :: cur)
        rw [if_neg (by simp [hx])]
      have hw := ih ht rest (x :: cur)
      rw [htr] at hw
      rw [hstep, hw]
      simp

theorem splitBlank_sep (rest cur : List Char) :
    splitBlankAux ('\n' :: '\n' :: rest) cur = cur.reverse :: splitBlankAux rest [] := by
  simp [splitBlankAux]

theorem splitBlank_single_nl {c : Char} (hc : c ≠ '\n') (t cur : List Char) :
    splitBlankAux ('\n' :: c :: t) cur = splitBlankAux (c :: t) ('\n' :: cur) := by
  simp only [splitBlankAux]
  rw [if_neg (by simp [hc])]

theorem joinLines_cons_data (l : String) (t : List String) :
    ∃ K, (joinLines (l :: t)).data = l.data ++ K := by
  cases t with
  | nil => exact ⟨[], by simp [joinLines]⟩
  | cons a b => exact ⟨'\n' :: (joinLines (a :: b)).data, by simp [joinLines]⟩

theorem splitBlank_block_walk (ls : List String) :
    (∀ l ∈ ls, l ≠ "" ∧ '\n' ∉ l.data) →
    ∀ (rest cur : List Char),
      splitBlankAux ((joinLines ls).data ++ rest) cur
        = splitBlankAux rest ((joinLines ls).data.reverse ++ cur) := by
  induction ls with
  | nil => intro h rest cur; simp [joinLines]
  | cons l t ih =>
    intro h
    cases t with
    | nil =>
      intro rest cur
      simpa [joinLines] using splitBlank_walk (h l (by simp)).2 rest cur
    | cons l2 t2 =>
      intro rest cur
      have hl : '\n' ∉ l.data := (h l (by simp)).2
      have hl2ne : l2.data ≠ [] := str_data_ne (h l2 (by simp)).1
      have hl2nl : '\n' ∉ l2.data := (h l2 (by simp)).2
      have hshape : (joinLines (l :: l2 :: t2)).data
          = l.data ++ ('\n' :: (joinLines (l2 :: t2)).data) := by
        simp [joinLines]
      rw [hshape, List.append_assoc, splitBlank_walk hl]
      obtain ⟨K, hK⟩ := joinLines_cons_data l2 t2
      cases hc : l2.data with
      | nil => exact absurd hc hl2ne
      | cons c cs =>
        have hcnl : c ≠ '\n' := fun hh => hl2nl (hc ▸ (hh ▸ List.mem_cons_self c cs))
        have hJ : (joinLines (l2 :: t2)).data ++ rest = c :: (cs ++ (K ++ rest)) := by
          rw [hK, hc]; simp
        rw [List.cons_append, hJ, splitBlank_single_nl hcnl, ← hJ,
          ih (fun x hx => h x (by simp [hx]))]
        simp

theorem splitBlank_blocks (bls : List (List String)) :
    bls ≠ [] →
    (∀ ls ∈ bls, ls ≠ [] ∧ ∀ l ∈ ls, l ≠ "" ∧ '\n' ∉ l.data) →
    splitBlankAux (mkInput (bls.map joinLines)).data []
      = bls.map fun ls => (joinLines ls).data := by
  induction bls with
  | nil => intro hne _; exact absurd rfl hne
  | cons b t ih =>
    intro _ h
    cases t with
    | nil =>
      have hw := splitBlank_block_walk b (fun l hl => (h b (by simp)).2 l hl) [] []
      simpa [mkInput, splitBlankAux] using hw
    | cons b2 t2 =>
      have hshape : (mkInput ((b :: b2 :: t2).map joinLines)).data
          = (joinLines b).data
            ++ ('\n' :: '\n' :: (mkInput ((b2 :: t2).map joinLines)).data) := by
        simp [mkInput]
      rw [hshape, splitBlank_block_walk b (fun l hl => (h b (by simp)).2 l hl),
        splitBlank_sep, ih (by simp) (fun ls hls => h ls (by simp [hls]))]
      simp

/-! ## Strip lemmas -/

theorem dropWhile_eq_self_of_head {p : Char → Bool} {l : List Char}
    (h : ∀ x ∈ l.head?, p x = false) : l.dropWhile p = l := by
  cases l with
  | nil => rfl
  | cons a t =>
    exact List.dropWhile_cons_of_neg (by simp [h a rfl])

theorem pyStripList_id_of {cs : List Char}
    (hh : ∀ x ∈ cs.head?, isPySpace x = false)
    (hl : ∀ x ∈ cs.getLast?, isPySpace x = false) : pyStripList cs = cs := by
  unfold pyStripList
  rw [dropWhile_eq_self_of_head hh]
  rw [dropWhile_eq_self_of_head (by simpa [List.head?_reverse] using hl)]
  exact List.reverse_reverse cs

theorem dropWhile_id_head {p : Char → Bool} {l : List Char}
    (h : l.dropWhile p = l) : ∀ x ∈ l.head?, p x = false := by
  intro x hx
  cases l with
  | nil => simp at hx
  | cons a t =>
    simp at hx
    subst hx
    by_contra hp
    rw [List.dropWhile_cons_of_pos (by simpa using hp)] at h
    have hlen := (List.dropWhile_sublist (l := t) p).length_le
    rw [h] at hlen
    simp at hlen

theorem stripped_bounds {cs : List Char} (h : pyStripList cs = cs) :
    (∀ x ∈ cs.head?, isPySpace x = false) ∧
      (∀ x ∈ cs.getLast?, isPySpace x = false) := by
  have hlen1 := (List.dropWhile_sublist (l := cs) isPySpace).length_le
  have hlen2 : (pyStripList cs).length ≤ (cs.dropWhile isPySpace).length := by
    unfold pyStripList
    simpa using (List.dropWhile_sublist (l := (cs.dropWhile isPySpace).reverse) isPySpace).length_le
  rw [h] at hlen2
  have hfront : cs.dropWhile isPySpace = cs :=
    (List.dropWhile_sublist (l := cs) isPySpace).eq_of_length (by omega)
  constructor
  · exact dropWhile_id_head hfront
  · have hback : cs.reverse.dropWhile isPySpace = cs.reverse := by
      have h2 : ((cs.reverse.dropWhile isPySpace).reverse) = cs := by
        unfold pyStripList at h
        rwa [hfront] at h
      have := congrArg List.reverse h2
      simpa using this
    intro x hx
    exact dropWhile_id_head hback x (by simpa [List.head?_reverse] using hx)

theorem goodText_bounds {s : String} (hg : goodText s) :
    s.data ≠ [] ∧ (∀ x ∈ s.data.head?, isPySpace x = false) ∧
      (∀ x ∈ s.data.getLast?, isPySpace x = false) := by
  obtain ⟨hne, hstr, -⟩ := hg
  have hdata : pyStripList s.data = s.data := congrArg String.data hstr
  exact ⟨str_data_ne hne, (stripped_bounds hdata).1, (stripped_bounds hdata).2⟩

/-! ## Line-scan lemmas -/

theorem qLine_data (b : BlockSpec) :
    (qLine b).data = (if b.lowerQ then 'q' else 'Q') :: ':' :: ' ' :: b.q.data := by
  cases hb : b.lowerQ <;> simp [qLine, hb]

theorem aLine_data (b : BlockSpec) :
    (aLine b).data = (if b.lowerA then 'a' else 'A') :: ':' :: ' ' :: b.a.data := by
  cases hb : b.lowerA <;> simp [aLine, hb]

theorem marker_strip {m : Char} (hm : isPySpace m = false) {s : String}
    (hs : goodText s) :
    pyStripList (m :: ':' :: ' ' :: s.data) = m :: ':' :: ' ' :: s.data := by
  obtain ⟨hne, hh, hl⟩ := goodText_bounds hs
  apply pyStripList_id_of
  · intro x hx; simp at hx; subst hx; exact hm
  · intro x hx
    cases hd : s.data with
    | nil => exact absurd hd hne
    | cons c cs =>
      rw [hd] at hx
      simp only [List.getLast?_cons_cons] at hx
      exact hl x (by rw [hd]; simpa using hx)

theorem qLine_strip (b : BlockSpec) (hq : goodText b.q) :
    pyStrip (qLine b) = qLine b := by
  unfold pyStrip
  rw [qLine_data, marker_strip (by cases b.lowerQ <;> rfl) hq, ← qLine_data]

theorem aLine_strip (b : BlockSpec) (ha : goodText b.a) :
    pyStrip (aLine b) = aLine b := by
  unfold pyStrip
  rw [aLine_data, marker_strip (by cases b.lowerA <;> rfl) ha, ← aLine_data]

theorem pyUpper_qLine_q (b : BlockSpec) :
    pyStartsWith (pyUpper (qLine b)) "Q:" = true := by
  unfold pyStartsWith pyUpper
  rw [qLine_data]
  cases b.lowerQ <;> rfl

theorem pyUpper_aLine_q (b : BlockSpec) :
    pyStartsWith (pyUpper (aLine b)) "Q:" = false := by
  unfold pyStartsWith pyUpper
  rw [aLine_data]
  cases b.lowerA <;> rfl

theorem pyUpper_aLine_a (b : BlockSpec) :
    pyStartsWith (pyUpper (aLine b)) "A:" = true := by
  unfold pyStartsWith pyUpper
  rw [aLine_data]
  cases b.lowerA <;> rfl

theorem strip_space_cons {s : String} (hs : goodText s) :
    pyStripList (' ' :: s.data) = s.data := by
  obtain ⟨hne, hh, hl⟩ := goodText_bounds hs
  unfold pyStripList
  rw [List.dropWhile_cons_of_pos (by decide)]
  rw [dropWhile_eq_self_of_head hh]
  rw [dropWhile_eq_self_of_head (by simpa [List.head?_reverse] using hl)]
  exact List.reverse_reverse _

theorem qLine_drop (b : BlockSpec) (hq : goodText b.q) :
    pyStrip (pyDropStr (qLine b) 2) = b.q := by
  have hdrop : pyDropStr (qLine b) 2 = ⟨' ' :: b.q.data⟩ := by
    unfold pyDropStr
    rw [qLine_data]
    rfl
  rw [hdrop]
  unfold pyStrip
  show (⟨pyStripList (' ' :: b.q.data)⟩ : String) = b.q
  rw [strip_space_cons hq]

theorem aLine_drop (b : BlockSpec) (ha : goodText b.a) :
    pyStrip (pyDropStr (aLine b) 2) = b.a := by
  have hdrop : pyDropStr (aLine b) 2 = ⟨' ' :: b.a.data⟩ := by
    unfold pyDropStr
    rw [aLine_data]
    rfl
  rw [hdrop]
  unfold pyStrip
  show (⟨pyStripList (' ' :: b.a.data)⟩ : String) = b.a
  rw [strip_space_cons ha]

theorem scanLine_qLine (acc : String × String) (b : BlockSpec) (hq : goodText b.q) :
    scanLine acc (qLine b) = (b.q, acc.2) := by
  simp only [scanLine]
  rw [qLine_strip b hq, pyUpper_qLine_q]
  simp [qLine_drop b hq]

theorem scanLine_aLine (acc : String × String) (b : BlockSpec) (ha : goodText b.a) :
    scanLine acc (aLine b) = (acc.1, b.a) := by
  simp only [scanLine]
  rw [aLine_strip b ha, pyUpper_aLine_q, pyUpper_aLine_a]
  simp [aLine_drop b ha]

theorem mkBlock_data (b : BlockSpec) :
    (mkBlock b).data = (qLine b).data ++ ('\n' :: (aLine b).data) := by
  simp [mkBlock]

theorem mkBlock_strip (b : BlockSpec) (hq : goodText b.q) (ha : goodText b.a) :
    pyStrip (mkBlock b) = mkBlock b := by
  have hq' := goodText_bounds hq
  have ha' := goodText_bounds ha
  unfold pyStrip
  rw [show (mkBlock b).data = (qLine b).data ++ ('\n' :: (aLine b).data)
    from mkBlock_data b]
  rw [pyStripList_id_of ?hh ?hl]
  · rw [← mkBlock_data]
  case hh =>
    intro x hx
    rw [List.head?_append, qLine_data] at hx
    simp at hx
    subst hx
    cases b.lowerQ <;> rfl
  case hl =>
    intro x hx
    rw [List.getLast?_append] at hx
    cases hd : b.a.data with
    | nil => exact absurd hd ha'.1
    | cons c cs =>
      rw [aLine_data, hd] at hx
      simp only [List.getLast?_cons_cons] at hx
      have hxs : x ∈ (c :: cs).getLast? := by
        cases hgl : (c :: cs).getLast? with
        | none => simp at hgl
        | some y => simpa [hgl, Option.or] using hx
      exact ha'.2.2 x (by rw [hd]; exact hxs)

theorem scanBlock_mkBlock (b : BlockSpec) (hq : goodText b.q) (ha : goodText b.a) :
    scanBlock (mkBlock b) = (b.q, b.a) := by
  unfold scanBlock
  rw [mkBlock_strip b hq ha]
  have hsplit : pySplitLines (mkBlock b) = [qLine b, aLine b] := by
    unfold pySplitLines
    have hj := splitLines_join [qLine b, aLine b] (by simp) ?hnl
    case hnl =>
      intro l hl
      simp at hl
      rcases hl with h | h <;> subst h
      · rw [qLine_data]
        intro hmem
        rw [List.mem_cons, List.mem_cons, List.mem_cons] at hmem
        rcases hmem with h | h | h | h
        · revert h; cases b.lowerQ <;> decide
        · exact absurd h (by decide)
        · exact absurd h (by decide)
        · exact hq.2.2 h
      · rw [aLine_data]
        intro hmem
        rw [List.mem_cons, List.mem_cons, List.mem_cons] at hmem
        rcases hmem with h | h | h | h
        · revert h; cases b.lowerA <;> decide
        · exact absurd h (by decide)
        · exact absurd h (by decide)
        · exact ha.2.2 h
    rw [show (mkBlock b) = joinLines [qLine b, aLine b] from rfl, hj]
    rfl
  rw [hsplit]
  simp only [List.foldl_cons, List.foldl_nil]
  rw [scanLine_qLine _ b hq, scanLine_aLine _ b ha]

/-! ## Parse master lemmas -/

theorem str_ne_of_data {s : String} (h : s.data ≠ []) : s ≠ "" :=
  fun he => h (by subst he; rfl)

theorem qLine_ne (b : BlockSpec) : qLine b ≠ "" :=
  str_ne_of_data (by rw [qLine_data]; simp)

theorem aLine_ne (b : BlockSpec) : aLine b ≠ "" :=
  str_ne_of_data (by rw [aLine_data]; simp)

theorem qLine_no_newline (b : BlockSpec) (hq : goodText b.q) :
    '\n' ∉ (qLine b).data := by
  rw [qLine_data]
  intro hmem
  rw [List.mem_cons, List.mem_cons, List.mem_cons] at hmem
  rcases hmem with h | h | h | h
  · revert h; cases b.lowerQ <;> decide
  · exact absurd h (by decide)
  · exact absurd h (by decide)
  · exact hq.2.2 h

theorem aLine_no_newline (b : BlockSpec) (ha : goodText b.a) :
    '\n' ∉ (aLine b).data := by
  rw [aLine_data]
  intro hmem
  rw [List.mem_cons, List.mem_cons, List.mem_cons] at hmem
  rcases hmem with h | h | h | h
  · revert h; cases b.lowerA <;> decide
  · exact absurd h (by decide)
  · exact absurd h (by decide)
  · exact ha.2.2 h

theorem parse_foldl (secs : List String) (acc : List FAQItem) :
    secs.foldl
      (fun faqs sec =>
        let qa := scanBlock sec
        if qa.1 ≠ "" ∧ qa.2 ≠ "" then faqs ++ [⟨qa.1, qa.2⟩] else faqs) acc
      = acc ++ secs.flatMap blockResult := by
  induction secs generalizing acc with
  | nil => simp
  | cons s t ih =>
    rw [List.foldl_cons, List.flatMap_cons, ih]
    by_cases hc : (scanBlock s).1 ≠ "" ∧ (scanBlock s).2 ≠ ""
    · simp [blockResult, hc]
    · simp [blockResult, hc]

theorem mkInput_data_ne (b : String) (t : List String) (hb : b.data ≠ []) :
    (mkInput (b :: t)).data ≠ [] := by
  cases t <;> simp [mkInput, hb]

theorem mkInput_head? (b : String) (t : List String) (hb : b.data ≠ []) :
    (mkInput (b :: t)).data.head? = b.data.head? := by
  cases t with
  | nil => rfl
  | cons b2 t2 =>
    show ((b ++ "\n\n" ++ mkInput (b2 :: t2))).data.head? = _
    cases hd : b.data with
    | nil => exact absurd hd hb
    | cons c cs => simp [hd]

theorem mkInput_getLast? (b : String) (t : List String) :
    (∀ bl ∈ b :: t, bl.data ≠ []) →
    ∃ bl, bl ∈ b :: t ∧ (mkInput (b :: t)).data.getLast? = bl.data.getLast? := by
  induction t generalizing b with
  | nil => exact fun _ => ⟨b, by simp, rfl⟩
  | cons b2 t2 ih =>
    intro h
    obtain ⟨bl, hbl, heq⟩ := ih b2 (fun x hx => h x (by simp at hx ⊢; tauto))
    refine ⟨bl, by simp at hbl ⊢; tauto, ?_⟩
    have hMne : (mkInput (b2 :: t2)).data ≠ [] := mkInput_data_ne b2 t2 (h b2 (by simp))
    have hshape : (mkInput (b :: b2 :: t2)).data
        = (b.data ++ ['\n', '\n']) ++ (mkInput (b2 :: t2)).data := by
      show ((b ++ "\n\n" ++ mkInput (b2 :: t2))).data = _
      simp
    rw [hshape, List.getLast?_append]
    obtain ⟨y, hy⟩ := Option.isSome_iff_exists.mp (List.getLast?_isSome.mpr hMne)
    rw [hy] at heq ⊢
    simpa using heq

theorem mkInput_strip (b : String) (t : List String)
    (h : ∀ bl ∈ b :: t, bl ≠ "" ∧ pyStrip bl = bl) :
    pyStrip (mkInput (b :: t)) = mkInput (b :: t) := by
  have hb : ∀ bl ∈ b :: t, bl.data ≠ [] ∧
      (∀ x ∈ bl.data.head?, isPySpace x = false) ∧
      (∀ x ∈ bl.data.getLast?, isPySpace x = false) := by
    intro bl hbl
    obtain ⟨hne, hstr⟩ := h bl hbl
    have hd : pyStripList bl.data = bl.data := congrArg String.data hstr
    exact ⟨str_data_ne hne, (stripped_bounds hd).1, (stripped_bounds hd).2⟩
  unfold pyStrip
  rw [pyStripList_id_of ?hh ?hl]
  case hh =>
    intro x hx
    rw [mkInput_head? b t (hb b (by simp)).1] at hx
    exact (hb b (by simp)).2.1 x hx
  case hl =>
    intro x hx
    obtain ⟨bl, hbl, heq⟩ := mkInput_getLast? b t (fun y hy => (hb y hy).1)
    rw [heq] at hx
    exact (hb bl hbl).2.2 x hx

theorem parse_mkInput (bls : List (List String)) (hne : bls ≠ [])
    (h : ∀ ls ∈ bls, ls ≠ [] ∧ ∀ l ∈ ls, l ≠ "" ∧ '\n' ∉ l.data)
    (hstrip : pyStrip (mkInput (bls.map joinLines)) = mkInput (bls.map joinLines)) :
    parse_faq_input (mkInput (bls.map joinLines))
      = (bls.map joinLines).flatMap blockResult := by
  unfold parse_faq_input
  rw [hstrip]
  unfold pySplitBlank
  rw [splitBlank_blocks bls hne h]
  rw [show ((bls.map fun ls => (joinLines ls).data).map fun cs => (⟨cs⟩ : String))
      = bls.map joinLines from by simp [List.map_map, strEta]]
  rw [parse_foldl]
  simp

theorem blockResult_mkBlock (b : BlockSpec) (hq : goodText b.q) (ha : goodText b.a) :
    blockResult (mkBlock b) = [⟨b.q, b.a⟩] := by
  unfold blockResult
  simp [scanBlock_mkBlock b hq ha, hq.1, ha.1]

theorem flatMap_blockResult_mkBlock (specs : List BlockSpec) :
    (∀ b ∈ specs, goodText b.q ∧ goodText b.a) →
    (specs.map mkBlock).flatMap blockResult = specs.map fun b => ⟨b.q, b.a⟩ := by
  induction specs with
  | nil => intro _; rfl
  | cons s t ih =>
    intro h
    simp only [List.map_cons, List.flatMap_cons]
    rw [blockResult_mkBlock s (h s (by simp)).1 (h s (by simp)).2,
      ih (fun b hb => h b (by simp [hb]))]
    rfl

theorem mkBlock_ne (b : BlockSpec) : mkBlock b ≠ "" :=
  str_ne_of_data (by rw [mkBlock_data, qLine_data]; simp)

theorem mkInput_strip_of_ne (blocks : List String) (hne : blocks ≠ [])
    (h : ∀ bl ∈ blocks, bl ≠ "" ∧ pyStrip bl = bl) :
    pyStrip (mkInput blocks) = mkInput blocks := by
  cases blocks with
  | nil => exact absurd rfl hne
  | cons b t => exact mkInput_strip b t h

/-! ## Claim C1 -/

/-- C1: an input of N well-formed `Q:`/`A:` blocks separated by blank
lines — each block a `Q:`-marked line then an `A:`-marked line, with
either marker independently lowercase — parses to exactly the N
`{question, answer}` items in source order, preserving the original case
of the captured text. -/
theorem parse_faq_wellformed_blocks (specs : List BlockSpec)
    (h : ∀ b ∈ specs, goodText b.q ∧ goodText b.a) :
    parse_faq_input (mkInput (specs.map mkBlock))
      = specs.map fun b => ⟨b.q, b.a⟩ := by
  cases specs with
  | nil =>
    show parse_faq_input (mkInput []) = []
    decide
  | cons s t =>
    have hmap : (s :: t).map mkBlock
        = (((s :: t).map fun b => [qLine b, aLine b]).map joinLines) := by
      simp only [List.map_map]
      rfl
    have hbl : ∀ ls ∈ ((s :: t).map fun b => [qLine b, aLine b]),
        ls ≠ [] ∧ ∀ l ∈ ls, l ≠ "" ∧ '\n' ∉ l.data := by
      intro ls hls
      simp only [List.mem_map] at hls
      obtain ⟨b, hbm, rfl⟩ := hls
      refine ⟨by simp, ?_⟩
      intro l hl
      simp at hl
      rcases hl with rfl | rfl
      · exact ⟨qLine_ne b, qLine_no_newline b (h b hbm).1⟩
      · exact ⟨aLine_ne b, aLine_no_newline b (h b hbm).2⟩
    have hstrip : pyStrip (mkInput ((s :: t).map mkBlock))
        = mkInput ((s :: t).map mkBlock) := by
      apply mkInput_strip_of_ne _ (by simp)
      intro bl hbl
      simp only [List.mem_map] at hbl
      obtain ⟨b, hbm, rfl⟩ := hbl
      exact ⟨mkBlock_ne b, mkBlock_strip b (h b hbm).1 (h b hbm).2⟩
    rw [hmap] at hstrip
    rw [hmap, parse_mkInput _ (by simp) hbl hstrip, ← hmap,
      flatMap_blockResult_mkBlock _ h]

theorem parse_faq_wellformed_blocks_witness :
    (∀ b ∈ ([⟨false, false, "Q1", "A1"⟩, ⟨true, true, "q2?", "a2"⟩] : List BlockSpec),
      goodText b.q ∧ goodText b.a) ∧
    parse_faq_input (mkInput
        (([⟨false, false, "Q1", "A1"⟩, ⟨true, true, "q2?", "a2"⟩] : List BlockSpec).map mkBlock))
      = [⟨"Q1", "A1"⟩, ⟨"q2?", "a2"⟩] :=
  ⟨by decide, parse_faq_wellformed_blocks _ (by decide)⟩

/-! ## Claim C5 -/

theorem blockResult_qonly (mq : String) (hmq : goodText mq) :
    blockResult (qLine ⟨false, false, mq, ""⟩) = [] := by
  unfold blockResult
  have hscan : scanBlock (qLine ⟨false, false, mq, ""⟩) = (mq, "") := by
    unfold scanBlock
    rw [qLine_strip _ hmq]
    have hsplit : pySplitLines (qLine ⟨false, false, mq, ""⟩)
        = [qLine ⟨false, false, mq, ""⟩] := by
      unfold pySplitLines
      have hsj := splitLines_join [qLine ⟨false, false, mq, ""⟩] (by simp)
        (by intro l hl; simp at hl; subst hl; exact qLine_no_newline _ hmq)
      simp only [joinLines] at hsj
      rw [hsj]
      simp [strEta]
    rw [hsplit]
    simp only [List.foldl_cons, List.foldl_nil]
    exact scanLine_qLine ("", "") ⟨false, false, mq, ""⟩ hmq
  simp [hscan]

/-- C5: a block whose scan ends with an empty accumulator contributes no
item: with N well-formed blocks and one malformed block (`Q:` line, no
`A:` line) anywhere between them, the parser returns exactly the N-1
well-formed items, skipping the malformed block with no partial item and
no error, so the output length is the block count minus one. -/
theorem malformed_block_skipped (specs1 specs2 : List BlockSpec) (mq : String)
    (h1 : ∀ b ∈ specs1, goodText b.q ∧ goodText b.a)
    (h2 : ∀ b ∈ specs2, goodText b.q ∧ goodText b.a)
    (hmq : goodText mq) :
    parse_faq_input (mkInput
        (specs1.map mkBlock ++ ["Q: " ++ mq] ++ specs2.map mkBlock))
      = (specs1.map fun b => ⟨b.q, b.a⟩) ++ (specs2.map fun b => ⟨b.q, b.a⟩) ∧
    (parse_faq_input (mkInput
        (specs1.map mkBlock ++ ["Q: " ++ mq] ++ specs2.map mkBlock))).length
      = numBlocks (mkInput
        (specs1.map mkBlock ++ ["Q: " ++ mq] ++ specs2.map mkBlock)) - 1 := by
  have hqonly : ("Q: " ++ mq) = qLine ⟨false, false, mq, ""⟩ := rfl
  have hmap : specs1.map mkBlock ++ ["Q: " ++ mq] ++ specs2.map mkBlock
      = ((specs1.map (fun b => [qLine b, aLine b])
          ++ [[qLine ⟨false, false, mq, ""⟩]]
          ++ specs2.map (fun b => [qLine b, aLine b])).map joinLines) := by
    simp only [List.map_append, List.map_map]
    rfl
  have hbl : ∀ ls ∈ (specs1.map (fun b => [qLine b, aLine b])
      ++ [[qLine ⟨false, false, mq, ""⟩]]
      ++ specs2.map (fun b => [qLine b, aLine b])),
      ls ≠ [] ∧ ∀ l ∈ ls, l ≠ "" ∧ '\n' ∉ l.data := by
    intro ls hls
    simp only [List.mem_append, List.mem_map, List.mem_singleton] at hls
    rcases hls with (⟨b, hbm, rfl⟩ | rfl) | ⟨b, hbm, rfl⟩
    · refine ⟨by simp, ?_⟩
      intro l hl
      simp at hl
      rcases hl with rfl | rfl
      · exact ⟨qLine_ne b, qLine_no_newline b (h1 b hbm).1⟩
      · exact ⟨aLine_ne b, aLine_no_newline b (h1 b hbm).2⟩
    · refine ⟨by simp, ?_⟩
      intro l hl
      simp at hl
      subst hl
      exact ⟨qLine_ne _, qLine_no_newline _ hmq⟩
    · refine ⟨by simp, ?_⟩
      intro l hl
      simp at hl
      rcases hl with rfl | rfl
      · exact ⟨qLine_ne b, qLine_no_newline b (h2 b hbm).1⟩
      · exact ⟨aLine_ne b, aLine_no_newline b (h2 b hbm).2⟩
  have hstrip : pyStrip (mkInput
      (specs1.map mkBlock ++ ["Q: " ++ mq] ++ specs2.map mkBlock))
      = mkInput (specs1.map mkBlock ++ ["Q: " ++ mq] ++ specs2.map mkBlock) := by
    apply mkInput_strip_of_ne _ (by simp)
    intro bl hbl
    simp only [List.mem_append, List.mem_map, List.mem_singleton] at hbl
    rcases hbl with (⟨b, hbm, rfl⟩ | rfl) | ⟨b, hbm, rfl⟩
    · exact ⟨mkBlock_ne b, mkBlock_strip b (h1 b hbm).1 (h1 b hbm).2⟩
    · rw [hqonly]
      exact ⟨qLine_ne _, qLine_strip _ hmq⟩
    · exact ⟨mkBlock_ne b, mkBlock_strip b (h2 b hbm).1 (h2 b hbm).2⟩
  have hstrip' := hstrip
  rw [hmap] at hstrip'
  have hmain : parse_faq_input (mkInput
      (specs1.map mkBlock ++ ["Q: " ++ mq] ++ specs2.map mkBlock))
      = (specs1.map fun b => ⟨b.q, b.a⟩) ++ (specs2.map fun b => ⟨b.q, b.a⟩) := by
    rw [hmap, parse_mkInput _ (by simp) hbl hstrip', ← hmap]
    rw [List.flatMap_append, List.flatMap_append]
    rw [flatMap_blockResult_mkBlock _ h1, flatMap_blockResult_mkBlock _ h2]
    rw [show (["Q: " ++ mq] : List String).flatMap blockResult
      = blockResult (qLine ⟨false, false, mq, ""⟩) from by rw [hqonly]; simp]
    rw [blockResult_qonly mq hmq]
    simp
  refine ⟨hmain, ?_⟩
  rw [hmain]
  have hblocks : numBlocks (mkInput
      (specs1.map mkBlock ++ ["Q: " ++ mq] ++ specs2.map mkBlock))
      = specs1.length + 1 + specs2.length := by
    unfold numBlocks
    rw [hstrip, hmap]
    unfold pySplitBlank
    rw [splitBlank_blocks _ (by simp) hbl]
    simp
    omega
  rw [hblocks]
  simp

theorem malformed_block_skipped_witness :
    ((∀ b ∈ ([⟨false, false, "Q1", "A1"⟩] : List BlockSpec),
        goodText b.q ∧ goodText b.a) ∧
      (∀ b ∈ ([⟨false, false, "Q3", "A3"⟩] : List BlockSpec),
        goodText b.q ∧ goodText b.a) ∧
      goodText "Q2only") ∧
    (parse_faq_input (mkInput
        (([⟨false, false, "Q1", "A1"⟩] : List BlockSpec).map mkBlock
          ++ ["Q: " ++ "Q2only"]
          ++ ([⟨false, false, "Q3", "A3"⟩] : List BlockSpec).map mkBlock))
      = [⟨"Q1", "A1"⟩, ⟨"Q3", "A3"⟩] ∧
    (parse_faq_input (mkInput
        (([⟨false, false, "Q1", "A1"⟩] : List BlockSpec).map mkBlock
          ++ ["Q: " ++ "Q2only"]
          ++ ([⟨false, false, "Q3", "A3"⟩] : List BlockSpec).map mkBlock))).length
      = numBlocks (mkInput
        (([⟨false, false, "Q1", "A1"⟩] : List BlockSpec).map mkBlock
          ++ ["Q: " ++ "Q2only"]
          ++ ([⟨false, false, "Q3", "A3"⟩] : List BlockSpec).map mkBlock)) - 1) :=
  ⟨⟨by decide, by decide, by decide⟩,
    malformed_block_skipped _ _ _ (by decide) (by decide) (by decide)⟩

/-! ## Claim C9 -/

theorem blockResult_length (sec : String) : (blockResult sec).length ≤ 1 := by
  by_cases hc : (scanBlock sec).1 ≠ "" ∧ (scanBlock sec).2 ≠ "" <;>
    simp [blockResult, hc]

theorem flatMap_blockResult_length (l : List String) :
    (l.flatMap blockResult).length ≤ l.length := by
  induction l with
  | nil => simp
  | cons s t ih =>
    rw [List.flatMap_cons]
    have hb := blockResult_length s
    simp only [List.length_append, List.length_cons]
    omega

theorem joinLines_data_ne (l : String) (t : List String) (hl : l.data ≠ []) :
    (joinLines (l :: t)).data ≠ [] := by
  cases t <;> simp [joinLines, hl]

theorem joinLines_head? (l : String) (t : List String) (hl : l.data ≠ []) :
    (joinLines (l :: t)).data.head? = l.data.head? := by
  cases t with
  | nil => rfl
  | cons l2 t2 =>
    show ((l ++ "\n" ++ joinLines (l2 :: t2))).data.head? = _
    cases hd : l.data with
    | nil => exact absurd hd hl
    | cons c cs => simp [hd]

theorem joinLines_getLast? (l : String) (t : List String) :
    (∀ x ∈ l :: t, x.data ≠ []) →
    ∃ x, x ∈ l :: t ∧ (joinLines (l :: t)).data.getLast? = x.data.getLast? := by
  induction t generalizing l with
  | nil => exact fun _ => ⟨l, by simp, rfl⟩
  | cons l2 t2 ih =>
    intro h
    obtain ⟨x, hx, heq⟩ := ih l2 (fun y hy => h y (by simp at hy ⊢; tauto))
    refine ⟨x, by simp at hx ⊢; tauto, ?_⟩
    have hMne : (joinLines (l2 :: t2)).data ≠ [] :=
      joinLines_data_ne l2 t2 (h l2 (by simp))
    have hshape : (joinLines (l :: l2 :: t2)).data
        = (l.data ++ ['\n']) ++ (joinLines (l2 :: t2)).data := by
      show ((l ++ "\n" ++ joinLines (l2 :: t2))).data = _
      simp
    rw [hshape, List.getLast?_append]
    obtain ⟨y, hy⟩ := Option.isSome_iff_exists.mp (List.getLast?_isSome.mpr hMne)
    rw [hy] at heq ⊢
    simpa using heq

theorem joinLines_strip (l : String) (t : List String)
    (h : ∀ x ∈ l :: t, x ≠ "" ∧ pyStrip x = x) :
    pyStrip (joinLines (l :: t)) = joinLines (l :: t) := by
  have hb : ∀ x ∈ l :: t, x.data ≠ [] ∧
      (∀ c ∈ x.data.head?, isPySpace c = false) ∧
      (∀ c ∈ x.data.getLast?, isPySpace c = false) := by
    intro x hx
    obtain ⟨hne, hstr⟩ := h x hx
    have hd : pyStripList x.data = x.data := congrArg String.data hstr
    exact ⟨str_data_ne hne, (stripped_bounds hd).1, (stripped_bounds hd).2⟩
  unfold pyStrip
  rw [pyStripList_id_of ?hh ?hl]
  case hh =>
    intro x hx
    rw [joinLines_head? l t (hb l (by simp)).1] at hx
    exact (hb l (by simp)).2.1 x hx
  case hl =>
    intro x hx
    obtain ⟨bl, hbl, heq⟩ := joinLines_getLast? l t (fun y hy => (hb y hy).1)
    rw [heq] at hx
    exact (hb bl hbl).2.2 x hx

/-- The `Q:`/`A:` line pair of one `(question, answer)` entry inside a
multi-pair block. -/
theorem qaLines_cons (p : String × String) (rest : List (String × String)) :
    qaLines (p :: rest)
      = qLine ⟨false, false, p.1, p.2⟩ :: aLine ⟨false, false, p.1, p.2⟩
        :: qaLines rest := by
  simp [qaLines]
  exact ⟨rfl, rfl⟩

theorem scan_qaLines (pairs : List (String × String)) :
    (∀ p ∈ pairs, goodText p.1 ∧ goodText p.2) →
    ∀ p0, pairs.getLast? = some p0 →
    ∀ acc, (qaLines pairs).foldl scanLine acc = (p0.1, p0.2) := by
  induction pairs with
  | nil => intro _ p0 hp0; simp at hp0
  | cons p rest ih =>
    intro h p0 hp0 acc
    rw [qaLines_cons]
    simp only [List.foldl_cons]
    rw [scanLine_qLine acc ⟨false, false, p.1, p.2⟩ (h p (by simp)).1,
      scanLine_aLine _ ⟨false, false, p.1, p.2⟩ (h p (by simp)).2]
    cases rest with
    | nil =>
      simp at hp0
      subst hp0
      rfl
    | cons r2 t2 =>
      rw [List.getLast?_cons_cons] at hp0
      exact ih (fun x hx => h x (by simp at hx ⊢; tauto)) p0 hp0 _

/-- C9: the parser emits at most one item per blank-line-separated block
(the output is never longer than the block count), and a single block
holding several `Q:`/`A:` pairs yields exactly one item, pairing the last
question of the block with the last answer — each `Q:` line overwrites
the question accumulator and each `A:` line overwrites the answer without
resetting the other. -/
theorem one_item_per_block :
    (∀ s : String, (parse_faq_input s).length ≤ numBlocks s) ∧
    (∀ (pairs : List (String × String)) (p0 : String × String),
      (∀ p ∈ pairs, goodText p.1 ∧ goodText p.2) →
      pairs.getLast? = some p0 →
      parse_faq_input (joinLines (qaLines pairs)) = [⟨p0.1, p0.2⟩]) := by
  constructor
  · intro s
    unfold parse_faq_input numBlocks
    rw [parse_foldl]
    simpa using flatMap_blockResult_length (pySplitBlank (pyStrip s))
  · intro pairs p0 h hp0
    have hpne : pairs ≠ [] := by
      intro he
      rw [he] at hp0
      simp at hp0
    obtain ⟨p1, rest, rfl⟩ := List.exists_cons_of_ne_nil hpne
    have hlines : ∀ x ∈ qaLines (p1 :: rest), x ≠ "" ∧ pyStrip x = x ∧ '\n' ∉ x.data := by
      intro x hx
      unfold qaLines at hx
      rw [List.mem_flatMap] at hx
      obtain ⟨p, hp, hpx⟩ := hx
      simp at hpx
      rcases hpx with rfl | rfl
      · exact ⟨qLine_ne ⟨false, false, p.1, p.2⟩,
          qLine_strip ⟨false, false, p.1, p.2⟩ (h p hp).1,
          qLine_no_newline ⟨false, false, p.1, p.2⟩ (h p hp).1⟩
      · exact ⟨aLine_ne ⟨false, false, p.1, p.2⟩,
          aLine_strip ⟨false, false, p.1, p.2⟩ (h p hp).2,
          aLine_no_newline ⟨false, false, p.1, p.2⟩ (h p hp).2⟩
    have hlshape : ∃ l0 lt, qaLines (p1 :: rest) = l0 :: lt := by
      rw [qaLines_cons]
      exact ⟨_, _, rfl⟩
    obtain ⟨l0, lt, hl0⟩ := hlshape
    have hstrip : pyStrip (joinLines (qaLines (p1 :: rest)))
        = joinLines (qaLines (p1 :: rest)) := by
      rw [hl0]
      exact joinLines_strip l0 lt
        (fun x hx => ⟨(hlines x (hl0 ▸ hx)).1, (hlines x (hl0 ▸ hx)).2.1⟩)
    have hmaster := parse_mkInput [qaLines (p1 :: rest)] (by simp)
      (by
        intro ls hls
        simp at hls
        subst hls
        exact ⟨by rw [hl0]; simp,
          fun l hl => ⟨(hlines l hl).1, (hlines l hl).2.2⟩⟩)
      (by
        show pyStrip (mkInput [joinLines (qaLines (p1 :: rest))]) = _
        exact hstrip)
    rw [show mkInput ([qaLines (p1 :: rest)].map joinLines)
        = joinLines (qaLines (p1 :: rest)) from rfl] at hmaster
    rw [hmaster]
    show blockResult (joinLines (qaLines (p1 :: rest))) ++ [] = _
    rw [List.append_nil]
    unfold blockResult
    have hscan : scanBlock (joinLines (qaLines (p1 :: rest))) = (p0.1, p0.2) := by
      unfold scanBlock
      rw [hstrip]
      have hsplit : pySplitLines (joinLines (qaLines (p1 :: rest)))
          = qaLines (p1 :: rest) := by
        unfold pySplitLines
        rw [splitLines_join _ (by rw [hl0]; simp)
          (fun l hl => (hlines l hl).2.2)]
        rw [List.map_map]
        exact map_mk_data _
      rw [hsplit]
      exact scan_qaLines _ h p0 hp0 ("", "")
    rw [hscan]
    have hp0good : goodText p0.1 ∧ goodText p0.2 := by
      have hp0mem : p0 ∈ p1 :: rest := List.mem_of_getLast?_eq_some hp0
      exact h p0 hp0mem
    simp [hp0good.1.1, hp0good.2.1]

theorem one_item_per_block_witness :
    (parse_faq_input "Q: a\n\nnothing\n\nQ: b\nA: c").length
        ≤ numBlocks "Q: a\n\nnothing\n\nQ: b\nA: c" ∧
    ((∀ p ∈ ([("q1", "a1"), ("q2", "a2")] : List (String × String)),
        goodText p.1 ∧ goodText p.2) ∧
      parse_faq_input (joinLines (qaLines [("q1", "a1"), ("q2", "a2")]))
        = [⟨"q2", "a2"⟩]) :=
  ⟨one_item_per_block.1 _,
    ⟨by decide, one_item_per_block.2 [("q1", "a1"), ("q2", "a2")] ("q2", "a2")
      (by decide) (by decide)⟩⟩

/-! ## Claim C8 -/

/-- C8: the embedding of `parse_faq_input` is total by construction (it
returns a plain list, with no error outcome to model), and both the empty
input and a blank input return the empty item list, the only failure
signal. -/
theorem parse_faq_input_total_empty :
    parse_faq_input "" = [] ∧ parse_faq_input " \n \n " = [] := by
  constructor <;> decide

/-! ## Claim C3 -/

/-- C3: on `{mainEntity: [{question: "Q1", answer: "A1"}]}` the FAQPage
JSON-LD document has `@context = "https://schema.org"`,
`@type = "FAQPage"`, and exactly one `mainEntity` entry of `@type`
`Question` with `name = "Q1"` and nested `acceptedAnswer` of `@type`
`Answer` with `text = "A1"`. -/
theorem faq_json_ld_fields :
    generate_json_ld [("mainEntity", .vlist [.vobj [("question", .vstr "Q1"),
        ("answer", .vstr "A1")]])] "FAQPage"
      = some (.vobj [("@context", .vstr "https://schema.org"),
          ("@type", .vstr "FAQPage"),
          ("mainEntity", .vlist [.vobj [("@type", .vstr "Question"),
            ("name", .vstr "Q1"),
            ("acceptedAnswer", .vobj [("@type", .vstr "Answer"),
              ("text", .vstr "A1")])]])]) := rfl

/-! ## Claim C4 -/

/-- C4: `escape_html` replaces exactly the five special characters, in a
single pass (the ampersand replacement comes first, so ampersands
introduced by the later replacements are never re-escaped: the net effect
is the one-pass per-character map `escCharSpec`), and the concrete
example of the specification holds. -/
theorem escape_html_single_pass :
    (∀ s : String, escape_html s = ⟨s.data.flatMap escCharSpec⟩) ∧
      escape_html "A & B <tag> \"quoted\" 'single'"
        = "A &amp; B &lt;tag&gt; &quot;quoted&quot; &#39;single&#39;" := by
  constructor
  · intro s
    simp [escape_html, escListChain_eq_flatMap]
  · decide

/-! ## Claim C7 -/

/-- C7: for a schema type outside the eight known ones, the markup
renderer returns the fallback literal (for every data mapping, without
error), and the JSON renderer falls back to the FAQPage schema applied to
the same data. -/
theorem unknown_schema_fallback (data : Dict) (schema_type : String)
    (h : schema_type ∉ (["FAQPage", "Article", "Product", "Breadcrumb",
      "LocalBusiness", "HowTo", "Recipe", "Person"] : List String)) :
    generate_microdata data schema_type
        = some "Microdata not available for this schema type" ∧
      generate_json_ld data schema_type = generate_json_ld data "FAQPage" := by
  simp only [List.mem_cons, List.mem_singleton, not_or] at h
  obtain ⟨h1, h2, h3, h4, h5, h6, h7, h8, -⟩ := h
  constructor
  · simp [generate_microdata, h1, h2, h3, h4, h5, h6, h7, h8]
  · unfold generate_json_ld
    refine obind_congr fun sFAQ => obind_congr fun sArt => obind_congr fun sPro =>
      obind_congr fun sBre => obind_congr fun sLoc => obind_congr fun sHow =>
      obind_congr fun sRec => obind_congr fun sPer => ?_
    simp [dictFind, Ne.symm h1, Ne.symm h2, Ne.symm h3, Ne.symm h4,
      Ne.symm h5, Ne.symm h6, Ne.symm h7, Ne.symm h8]

theorem unknown_schema_fallback_witness :
    (("Event" : String) ∉ (["FAQPage", "Article", "Product", "Breadcrumb",
        "LocalBusiness", "HowTo", "Recipe", "Person"] : List String)) ∧
      (generate_microdata [] "Event"
          = some "Microdata not available for this schema type" ∧
        generate_json_ld [] "Event" = generate_json_ld [] "FAQPage") :=
  ⟨by decide, unknown_schema_fallback [] "Event" (by decide)⟩

/-! ## Claim C10 -/

/-- C10: a list entry missing a directly-indexed key makes the renderers
fail with a key-lookup error — for the JSON renderer even when the
requested schema type does not use that list, since the whole `schemas`
dict is built eagerly — while data with every field missing renders
through defaults and never errors, for every schema type. -/
theorem list_indexing_and_defaults :
    generate_json_ld [("mainEntity", .vlist [.vobj [("answer", .vstr "A")]])]
        "Article" = none ∧
    generate_microdata [("mainEntity", .vlist [.vobj [("answer", .vstr "A")]])]
        "FAQPage" = none ∧
    generate_microdata [("itemListElement", .vlist [.vobj [("name", .vstr "Home"),
        ("item", .vstr "https://a.example/")]])] "Breadcrumb" = none ∧
    generate_json_ld [] "Article"
        = some (.vobj [("@context", .vstr "https://schema.org"),
          ("@type", .vstr "Article"), ("headline", .vstr ""),
          ("author", .vobj [("@type", .vstr "Person"), ("name", .vstr "")]),
          ("datePublished", .vstr ""), ("dateModified", .vstr ""),
          ("description", .vstr ""), ("articleBody", .vstr ""),
          ("image", .vstr "")]) ∧
    (∀ schema_type : String, (generate_json_ld [] schema_type).isSome = true) ∧
    (∀ schema_type : String, (generate_microdata [] schema_type).isSome = true) := by
  refine ⟨rfl, rfl, rfl, rfl, fun st => rfl, fun st => ?_⟩
  unfold generate_microdata
  split_ifs <;> rfl

/-! ## Claim C2, counterexample part -/

/-- C2 counterexample: for Article data with an `image` value, the JSON
rendering carries that field value but the markup rendering does not
contain it at all (neither raw nor escaped), so the two encodings do not
encode the same value set. -/
theorem roundtrip_counterexample :
    (generate_json_ld [("image", .vstr "IMGVALUE")] "Article").bind
        (fun doc => jsonField doc "image") = some (.vstr "IMGVALUE") ∧
      ∃ h, generate_microdata [("image", .vstr "IMGVALUE")] "Article" = some h ∧
        ¬ "IMGVALUE".data <:+: h.data ∧
        ¬ (escape_html "IMGVALUE").data <:+: h.data := by
  exact ⟨rfl, _, rfl, by decide, by decide⟩

/-! ## Claim C6, counterexample part -/

/-- C6 counterexample: the Article `datePublished` value is inserted into
the output of `generate_microdata` raw, not through `escape_html` — the
raw value (here with markup-special characters) occurs verbatim in the
output and its escaped form does not occur. -/
theorem unescaped_insertion_counterexample :
    escape_html "<RAW>" ≠ "<RAW>" ∧
      ∃ h, generate_microdata [("datePublished", .vstr "<RAW>")] "Article" = some h ∧
        "<RAW>".data <:+: h.data ∧
        ¬ (escape_html "<RAW>").data <:+: h.data := by
  exact ⟨by decide, _, rfl, by decide, by decide⟩

/-! ## Text-extractor (segment) lemmas -/

theorem segStep_acc (acc : List (List Char)) (cur : Option (List Char)) (c : Char) :
    segStep (acc, cur) c
      = (acc ++ (segStep ([], cur) c).1, (segStep ([], cur) c).2) := by
  unfold segStep
  split_ifs <;> cases cur <;> simp

theorem segRun_shift (xs : List Char) :
    ∀ (acc : List (List Char)) (cur : Option (List Char)),
      List.foldl segStep (acc, cur) xs
        = (acc ++ (segRun cur xs).1, (segRun cur xs).2) := by
  induction xs with
  | nil => intro acc cur; simp [segRun]
  | cons c t ih =>
    intro acc cur
    cases hsc : segStep ([], cur) c with
    | mk s1 s2 =>
      have hR : segRun cur (c :: t) = (s1 ++ (segRun s2 t).1, (segRun s2 t).2) := by
        show List.foldl segStep ([], cur) (c :: t) = _
        rw [List.foldl_cons, hsc, ih s1 s2]
      rw [List.foldl_cons, segStep_acc, hsc, hR]
      dsimp only
      rw [ih (acc ++ s1) s2]
      simp [List.append_assoc]

theorem segRun_append (cur : Option (List Char)) (xs ys : List Char) :
    segRun cur (xs ++ ys)
      = ((segRun cur xs).1 ++ (segRun (segRun cur xs).2 ys).1,
         (segRun (segRun cur xs).2 ys).2) := by
  cases hx : segRun cur xs with
  | mk a1 a2 =>
    show List.foldl segStep ([], cur) (xs ++ ys) = _
    rw [List.foldl_append]
    rw [show List.foldl segStep ([], cur) xs = (a1, a2) from hx]
    rw [segRun_shift]

theorem segRun_no_angle (xs : List Char) (h : ∀ c ∈ xs, c ≠ '<' ∧ c ≠ '>') :
    ∀ w, segRun (some w) xs = ([], some (w ++ xs)) := by
  induction xs with
  | nil => intro w; simp [segRun]
  | cons c t ih =>
    intro w
    have hc := h c (by simp)
    have hstep : segStep ([], some w) c = ([], some (w ++ [c])) := by
      unfold segStep
      rw [if_neg (by simp [hc.2]), if_neg (by simp [hc.1])]
    show List.foldl segStep (segStep ([], some w) c) t = _
    rw [hstep]
    rw [show List.foldl segStep (([] : List (List Char)), some (w ++ [c])) t
      = segRun (some (w ++ [c])) t from rfl]
    rw [ih (fun x hx => h x (by simp [hx])) (w ++ [c])]
    simp

theorem segRun_none_free (xs : List Char) (h : ∀ c ∈ xs, c ≠ '<' ∧ c ≠ '>') :
    segRun none xs = ([], none) := by
  induction xs with
  | nil => rfl
  | cons c t ih =>
    have hc := h c (by simp)
    have hstep : segStep ([], none) c = ([], none) := by
      unfold segStep
      rw [if_neg (by simp [hc.2]), if_neg (by simp [hc.1])]
    show List.foldl segStep (segStep ([], none) c) t = _
    rw [hstep]
    exact ih (fun x hx => h x (by simp [hx]))

theorem segRun_esc (s : String) :
    segRun (some []) (escape_html s).data = ([], some (escape_html s).data) := by
  simpa using segRun_no_angle (escape_html s).data (escape_no_angle s) []

theorem textSegments_eq (s : String) :
    textSegments s
      = (((segRun none s.data).1).filter
          (fun seg => seg.any fun c => !wsChar c)).map fun cs => ⟨cs⟩ := rfl

/-! ## FAQPage rendering evaluation -/

theorem osome_bind {α β : Type} (a : α) (f : α → Option β) :
    (some a >>= f) = f a := rfl

theorem microFAQItem_eval (q a : String) :
    microFAQItem (.vobj [("question", .vstr q), ("answer", .vstr a)])
      = some (faqChunk q a) := rfl

theorem faqLoopBody_eval (acc q a : String) :
    faqLoopBody acc (.vobj [("question", .vstr q), ("answer", .vstr a)])
      = some (acc ++ faqChunk q a) := rfl

theorem faq_loop (pairs : List (String × String)) :
    ∀ acc : String,
      (faqItemsVal pairs).foldlM faqLoopBody acc
        = some (pairs.foldl (fun s p => s ++ faqChunk p.1 p.2) acc) := by
  induction pairs with
  | nil => intro acc; rfl
  | cons p t ih =>
    intro acc
    rw [show faqItemsVal (p :: t)
        = (Value.vobj [("question", .vstr p.1), ("answer", .vstr p.2)])
          :: faqItemsVal t from rfl]
    rw [List.foldlM_cons, faqLoopBody_eval, osome_bind, ih, List.foldl_cons]

theorem strFoldl_append (f : String × String → String) (pairs : List (String × String)) :
    ∀ acc, pairs.foldl (fun s p => s ++ f p) acc = acc ++ strJoin (pairs.map f) := by
  induction pairs with
  | nil => intro acc; simp [strJoin]
  | cons p t ih =>
    intro acc
    rw [List.foldl_cons, ih, List.map_cons,
      show strJoin (f p :: t.map f) = f p ++ strJoin (t.map f) from rfl,
      String.append_assoc]

theorem microFAQ_eval (pairs : List (String × String)) :
    microFAQ (faqData pairs)
      = some ("<div itemscope itemtype=\"https://schema.org/FAQPage\">\n"
          ++ strJoin (pairs.map fun p => faqChunk p.1 p.2) ++ "</div>") := by
  unfold microFAQ
  rw [show dictGetList (faqData pairs) "mainEntity" = some (faqItemsVal pairs) from rfl,
    osome_bind, faq_loop, osome_bind,
    strFoldl_append (fun p => faqChunk p.1 p.2) pairs]
  rfl

theorem faqChunk_run (q a : String) :
    segRun (some ['\n']) (faqChunk q a).data
      = (["\n  ".data, "\n    ".data, (escape_html q).data, "\n    ".data,
          "\n      ".data, (escape_html a).data, "\n    ".data, "\n  ".data],
         some ['\n']) := by
  have h1 : segRun (some ['\n'])
      "  <div itemscope itemprop=\"mainEntity\" itemtype=\"https://schema.org/Question\">\n".data
      = (["\n  ".data], some ['\n']) := rfl
  have h2 : segRun (some ['\n']) "    <h3 itemprop=\"name\">".data
      = (["\n    ".data], some []) := rfl
  have h3 : ∀ w, segRun (some w) "</h3>\n".data = ([w], some ['\n']) := fun w => rfl
  have h4 : segRun (some ['\n'])
      "    <div itemscope itemprop=\"acceptedAnswer\" itemtype=\"https://schema.org/Answer\">\n".data
      = (["\n    ".data], some ['\n']) := rfl
  have h5 : segRun (some ['\n']) "      <div itemprop=\"text\">".data
      = (["\n      ".data], some []) := rfl
  have h6 : ∀ w, segRun (some w) "</div>\n".data = ([w], some ['\n']) := fun w => rfl
  have h7 : segRun (some ['\n']) "    </div>\n".data
      = (["\n    ".data], some ['\n']) := rfl
  have h8 : segRun (some ['\n']) "  </div>\n".data
      = (["\n  ".data], some ['\n']) := rfl
  simp only [faqChunk, String.data_append, segRun_append, h1, h2, h3, h4, h5, h6, h7, h8,
    segRun_esc]
  simp

theorem faqChunks_run (pairs : List (String × String)) :
    segRun (some ['\n']) (strJoin (pairs.map fun p => faqChunk p.1 p.2)).data
      = (pairs.flatMap (fun p =>
          ["\n  ".data, "\n    ".data, (escape_html p.1).data, "\n    ".data,
           "\n      ".data, (escape_html p.2).data, "\n    ".data, "\n  ".data]),
         some ['\n']) := by
  induction pairs with
  | nil => rfl
  | cons p t ih =>
    rw [List.map_cons,
      show strJoin (faqChunk p.1 p.2 :: (t.map fun p => faqChunk p.1 p.2))
        = faqChunk p.1 p.2 ++ strJoin (t.map fun p => faqChunk p.1 p.2) from rfl]
    rw [String.data_append, segRun_append, faqChunk_run]
    dsimp only
    rw [ih, List.flatMap_cons]

theorem filter_faq_segs (pairs : List (String × String)) :
    (∀ p ∈ pairs, visibleStr p.1 ∧ visibleStr p.2) →
    (pairs.flatMap fun p =>
        ["\n  ".data, "\n    ".data, (escape_html p.1).data, "\n    ".data,
         "\n      ".data, (escape_html p.2).data, "\n    ".data, "\n  ".data]).filter
      (fun seg => seg.any fun c => !wsChar c)
    = pairs.flatMap fun p => [(escape_html p.1).data, (escape_html p.2).data] := by
  induction pairs with
  | nil => intro _; rfl
  | cons p t ih =>
    intro h
    rw [List.flatMap_cons, List.flatMap_cons, List.filter_append,
      ih (fun x hx => h x (by simp [hx]))]
    congr 1
    have hq : ((escape_html p.1).data.any fun c => !wsChar c) = true :=
      escape_visible (h p (by simp)).1
    have ha : ((escape_html p.2).data.any fun c => !wsChar c) = true :=
      escape_visible (h p (by simp)).2
    have hw1 : (("\n  ").data.any fun c => !wsChar c) = false := rfl
    have hw2 : (("\n    ").data.any fun c => !wsChar c) = false := rfl
    have hw3 : (("\n      ").data.any fun c => !wsChar c) = false := rfl
    simp [List.filter_cons, hq, ha, hw1, hw2, hw3]

theorem faq_textSegments (pairs : List (String × String))
    (h : ∀ p ∈ pairs, visibleStr p.1 ∧ visibleStr p.2) :
    textSegments ("<div itemscope itemtype=\"https://schema.org/FAQPage\">\n"
        ++ strJoin (pairs.map fun p => faqChunk p.1 p.2) ++ "</div>")
      = (pairs.flatMap fun p => [p.1, p.2]).map escape_html := by
  rw [textSegments_eq]
  have h0 : segRun none
      "<div itemscope itemtype=\"https://schema.org/FAQPage\">\n".data
      = ([], some ['\n']) := rfl
  have h9 : ∀ w, segRun (some w) "</div>".data = ([w], some []) := fun w => rfl
  simp only [String.data_append, segRun_append, h0, faqChunks_run, h9]
  rw [List.nil_append, List.filter_append, filter_faq_segs pairs h]
  rw [show (([['\n']] : List (List Char)).filter
      (fun seg => seg.any fun c => !wsChar c)) = [] from rfl]
  rw [List.append_nil]
  rw [List.map_flatMap, List.map_flatMap]
  simp [strEta]

theorem faqEntry_eval (q a : String) :
    faqEntry (.vobj [("question", .vstr q), ("answer", .vstr a)])
      = some (.vobj [("@type", .vstr "Question"), ("name", .vstr q),
          ("acceptedAnswer", .vobj [("@type", .vstr "Answer"), ("text", .vstr a)])]) := rfl

theorem faq_mapM (pairs : List (String × String)) :
    (faqItemsVal pairs).mapM faqEntry
      = some (pairs.map fun p => Value.vobj [("@type", .vstr "Question"),
          ("name", .vstr p.1),
          ("acceptedAnswer", .vobj [("@type", .vstr "Answer"), ("text", .vstr p.2)])]) := by
  induction pairs with
  | nil => rfl
  | cons p t ih =>
    rw [show faqItemsVal (p :: t)
        = (Value.vobj [("question", .vstr p.1), ("answer", .vstr p.2)])
          :: faqItemsVal t from rfl]
    rw [List.mapM_cons, faqEntry_eval, osome_bind, ih, osome_bind]
    rfl

theorem generate_json_ld_faq_eval (pairs : List (String × String)) :
    generate_json_ld (faqData pairs) "FAQPage"
      = some (.vobj [("@context", .vstr "https://schema.org"),
          ("@type", .vstr "FAQPage"),
          ("mainEntity", .vlist (pairs.map fun p =>
            Value.vobj [("@type", .vstr "Question"), ("name", .vstr p.1),
              ("acceptedAnswer", .vobj [("@type", .vstr "Answer"),
                ("text", .vstr p.2)])]))]) := by
  have hfaq : buildFAQ (faqData pairs)
      = some (.vobj [("@context", .vstr "https://schema.org"),
          ("@type", .vstr "FAQPage"),
          ("mainEntity", .vlist (pairs.map fun p =>
            Value.vobj [("@type", .vstr "Question"), ("name", .vstr p.1),
              ("acceptedAnswer", .vobj [("@type", .vstr "Answer"),
                ("text", .vstr p.2)])]))]) := by
    unfold buildFAQ
    rw [show dictGetList (faqData pairs) "mainEntity" = some (faqItemsVal pairs) from rfl,
      osome_bind, faq_mapM, osome_bind]
    rfl
  unfold generate_json_ld
  rw [hfaq, osome_bind]
  rfl

theorem jsonFAQValues_eval (pairs : List (String × String)) :
    jsonFAQValues (.vobj [("@context", .vstr "https://schema.org"),
        ("@type", .vstr "FAQPage"),
        ("mainEntity", .vlist (pairs.map fun p =>
          Value.vobj [("@type", .vstr "Question"), ("name", .vstr p.1),
            ("acceptedAnswer", .vobj [("@type", .vstr "Answer"),
              ("text", .vstr p.2)])]))])
      = some (pairs.flatMap fun p => [p.1, p.2]) := by
  have hm : ∀ ps : List (String × String),
      (ps.map fun p => Value.vobj [("@type", .vstr "Question"), ("name", .vstr p.1),
        ("acceptedAnswer", .vobj [("@type", .vstr "Answer"),
          ("text", .vstr p.2)])]).mapM (fun e => do
            let nm ← itemStr e "name"
            let aa ← itemVal e "acceptedAnswer"
            let tx ← itemStr aa "text"
            pure [nm, tx])
        = some (ps.map fun p => [p.1, p.2]) := by
    intro ps
    induction ps with
    | nil => rfl
    | cons p t ih =>
      rw [List.map_cons, List.mapM_cons]
      rw [show ((do
          let nm ← itemStr (Value.vobj [("@type", .vstr "Question"),
            ("name", .vstr p.1),
            ("acceptedAnswer", .vobj [("@type", .vstr "Answer"),
              ("text", .vstr p.2)])]) "name"
          let aa ← itemVal (Value.vobj [("@type", .vstr "Question"),
            ("name", .vstr p.1),
            ("acceptedAnswer", .vobj [("@type", .vstr "Answer"),
              ("text", .vstr p.2)])]) "acceptedAnswer"
          let tx ← itemStr aa "text"
          pure [nm, tx]) : Option (List String)) = some [p.1, p.2] from rfl]
      rw [osome_bind, ih, osome_bind]
      rfl
  show ((pairs.map fun p => Value.vobj [("@type", .vstr "Question"),
      ("name", .vstr p.1),
      ("acceptedAnswer", .vobj [("@type", .vstr "Answer"),
        ("text", .vstr p.2)])]).mapM (fun e => do
          let nm ← itemStr e "name"
          let aa ← itemVal e "acceptedAnswer"
          let tx ← itemStr aa "text"
          pure [nm, tx]) >>= fun vss => pure vss.flatten) = _
  rw [hm pairs, osome_bind]
  show some (pairs.map fun p => [p.1, p.2]).flatten = _
  rw [show (pairs.map fun p => [p.1, p.2]).flatten
    = pairs.flatMap fun p => [p.1, p.2] from (List.flatMap_def _ _).symm]

/-! ## Claim C2, amended part -/

/-- C2, amended: for schema type FAQPage the two renderings do encode the
identical field values modulo escaping — reading the values back gives the
question/answer list from the JSON document and exactly its image under
`escape_html` from the markup text nodes.  (For the other schema types the
markup rendering omits fields carried by the JSON rendering — e.g. the
Article `image` of the counterexample — so the equivalence fails in
general.) -/
theorem roundtrip_faq_equivalence (pairs : List (String × String))
    (h : ∀ p ∈ pairs, visibleStr p.1 ∧ visibleStr p.2) :
    ∃ doc html,
      generate_json_ld (faqData pairs) "FAQPage" = some doc ∧
      generate_microdata (faqData pairs) "FAQPage" = some html ∧
      jsonFAQValues doc = some (pairs.flatMap fun p => [p.1, p.2]) ∧
      textSegments html = (pairs.flatMap fun p => [p.1, p.2]).map escape_html := by
  exact ⟨_, _, generate_json_ld_faq_eval pairs, microFAQ_eval pairs,
    jsonFAQValues_eval pairs, faq_textSegments pairs h⟩

theorem roundtrip_faq_equivalence_witness :
    (∀ p ∈ ([("Q&1", "A<1")] : List (String × String)),
      visibleStr p.1 ∧ visibleStr p.2) ∧
    (∃ doc html,
      generate_json_ld (faqData [("Q&1", "A<1")]) "FAQPage" = some doc ∧
      generate_microdata (faqData [("Q&1", "A<1")]) "FAQPage" = some html ∧
      jsonFAQValues doc = some ((([("Q&1", "A<1")] : List (String × String))).flatMap
        fun p => [p.1, p.2]) ∧
      textSegments html = ((([("Q&1", "A<1")] : List (String × String))).flatMap
        fun p => [p.1, p.2]).map escape_html) :=
  ⟨by decide, roundtrip_faq_equivalence [("Q&1", "A<1")] (by decide)⟩

/-! ## Claim C6, amended part -/

/-- C6, amended: in `generate_microdata`, user-supplied values rendered
as element text content pass through `escape_html` — the text read back
out of the output is exactly the escaped values — but the insertions into
`meta content` attributes and the raw price do not: Article
`datePublished`/`dateModified` and Product `priceCurrency` sit in
attributes unescaped (and never appear as text), Product `price` appears
as raw unescaped text, and Breadcrumb `position` sits in an attribute
unescaped while `item` (escaped) lands in an `href` attribute rather than
text. -/
theorem microdata_escaping_by_position :
    (∀ hl au dp dm ds ab : String,
      visibleStr hl → visibleStr au → visibleStr ds → visibleStr ab →
      angleFree dp → angleFree dm →
      ∃ h, generate_microdata (articleData hl au dp dm ds ab) "Article" = some h ∧
        textSegments h
          = [escape_html hl, escape_html au, escape_html ds, escape_html ab]) ∧
    (∀ nm ds br pr cur : String,
      visibleStr nm → visibleStr ds → visibleStr br → visibleStr pr →
      angleFree pr → angleFree cur →
      ∃ h, generate_microdata (productData nm ds br pr cur) "Product" = some h ∧
        textSegments h = [escape_html nm, escape_html ds, escape_html br, pr]) ∧
    (∀ itm nm pos : String,
      visibleStr nm → angleFree pos →
      ∃ h, generate_microdata (breadcrumbData itm nm pos) "Breadcrumb" = some h ∧
        textSegments h = [escape_html nm]) := by
  refine ⟨?_, ?_, ?_⟩
  · intro hl au dp dm ds ab hhl hau hds hab hdp hdm
    refine ⟨_, rfl, ?_⟩
    rw [textSegments_eq]
    have e0 : segRun none
        "<article itemscope itemtype=\"https://schema.org/Article\">\n".data
        = ([], some ['\n']) := rfl
    have e1 : segRun (some ['\n']) "  <h1 itemprop=\"headline\">".data
        = (["\n  ".data], some []) := rfl
    have e2 : ∀ w, segRun (some w) "</h1>\n".data = ([w], some ['\n']) := fun w => rfl
    have e3 : segRun (some ['\n'])
        "  <div itemprop=\"author\" itemscope itemtype=\"https://schema.org/Person\">\n".data
        = (["\n  ".data], some ['\n']) := rfl
    have e4 : segRun (some ['\n']) "    <span itemprop=\"name\">".data
        = (["\n    ".data], some []) := rfl
    have e5 : ∀ w, segRun (some w) "</span>\n".data = ([w], some ['\n']) := fun w => rfl
    have e6 : segRun (some ['\n']) "  </div>\n".data
        = (["\n  ".data], some ['\n']) := rfl
    have e7 : segRun (some ['\n'])
        "  <meta itemprop=\"datePublished\" content=\"".data
        = (["\n  ".data], none) := rfl
    have e8 : segRun none dp.data = ([], none) := segRun_none_free dp.data hdp
    have e9 : segRun none "\">\n".data = ([], some ['\n']) := rfl
    have e10 : segRun (some ['\n'])
        "  <meta itemprop=\"dateModified\" content=\"".data
        = (["\n  ".data], none) := rfl
    have e11 : segRun none dm.data = ([], none) := segRun_none_free dm.data hdm
    have e12 : segRun (some ['\n']) "  <div itemprop=\"description\">".data
        = (["\n  ".data], some []) := rfl
    have e13 : ∀ w, segRun (some w) "</div>\n".data = ([w], some ['\n']) := fun w => rfl
    have e14 : segRun (some ['\n']) "  <div itemprop=\"articleBody\">".data
        = (["\n  ".data], some []) := rfl
    have e15 : segRun (some ['\n']) "</article>".data = ([['\n']], some []) := rfl
    simp only [String.data_append, segRun_append, e0, e1, e2, e3, e4, e5, e6, e7, e8,
      e9, e10, e11, e12, e13, e14, e15, segRun_esc]
    have hv1 : ((escape_html hl).data.any fun c => !wsChar c) = true := escape_visible hhl
    have hv2 : ((escape_html au).data.any fun c => !wsChar c) = true := escape_visible hau
    have hv3 : ((escape_html ds).data.any fun c => !wsChar c) = true := escape_visible hds
    have hv4 : ((escape_html ab).data.any fun c => !wsChar c) = true := escape_visible hab
    have hw1 : (("\n  ").data.any fun c => !wsChar c) = false := rfl
    have hw2 : (("\n    ").data.any fun c => !wsChar c) = false := rfl
    have hwn : ((['\n'] : List Char).any fun c => !wsChar c) = false := rfl
    simp [List.filter_append, List.filter_cons, hv1, hv2, hv3, hv4, hw1, hw2, hwn, strEta]
  · intro nm ds br pr cur hnm hds hbr hpr hprA hcurA
    refine ⟨_, rfl, ?_⟩
    rw [textSegments_eq]
    have e0 : segRun none
        "<div itemscope itemtype=\"https://schema.org/Product\">\n".data
        = ([], some ['\n']) := rfl
    have e1 : segRun (some ['\n']) "  <h1 itemprop=\"name\">".data
        = (["\n  ".data], some []) := rfl
    have e2 : ∀ w, segRun (some w) "</h1>\n".data = ([w], some ['\n']) := fun w => rfl
    have e3 : segRun (some ['\n']) "  <div itemprop=\"description\">".data
        = (["\n  ".data], some []) := rfl
    have e4 : ∀ w, segRun (some w) "</div>\n".data = ([w], some ['\n']) := fun w => rfl
    have e5 : segRun (some ['\n'])
        "  <div itemprop=\"brand\" itemscope itemtype=\"https://schema.org/Brand\">\n".data
        = (["\n  ".data], some ['\n']) := rfl
    have e6 : segRun (some ['\n']) "    <span itemprop=\"name\">".data
        = (["\n    ".data], some []) := rfl
    have e7 : ∀ w, segRun (some w) "</span>\n".data = ([w], some ['\n']) := fun w => rfl
    have e8 : segRun (some ['\n']) "  </div>\n".data
        = (["\n  ".data], some ['\n']) := rfl
    have e9 : segRun (some ['\n'])
        "  <div itemprop=\"offers\" itemscope itemtype=\"https://schema.org/Offer\">\n".data
        = (["\n  ".data], some ['\n']) := rfl
    have e10 : segRun (some ['\n']) "    <span itemprop=\"price\">".data
        = (["\n    ".data], some []) := rfl
    have e11 : segRun (some []) pr.data = ([], some pr.data) := by
      simpa using segRun_no_angle pr.data hprA []
    have e12 : segRun (some ['\n'])
        "    <meta itemprop=\"priceCurrency\" content=\"".data
        = (["\n    ".data], none) := rfl
    have e13 : segRun none cur.data = ([], none) := segRun_none_free cur.data hcurA
    have e14 : segRun none "\">\n".data = ([], some ['\n']) := rfl
    have e15 : segRun (some ['\n']) "</div>".data = ([['\n']], some []) := rfl
    simp only [String.data_append, segRun_append, e0, e1, e2, e3, e4, e5, e6, e7, e8,
      e9, e10, e11, e12, e13, e14, e15, segRun_esc]
    have hv1 : ((escape_html nm).data.any fun c => !wsChar c) = true := escape_visible hnm
    have hv2 : ((escape_html ds).data.any fun c => !wsChar c) = true := escape_visible hds
    have hv3 : ((escape_html br).data.any fun c => !wsChar c) = true := escape_visible hbr
    have hv4 : (pr.data.any fun c => !wsChar c) = true := hpr
    have hw1 : (("\n  ").data.any fun c => !wsChar c) = false := rfl
    have hw2 : (("\n    ").data.any fun c => !wsChar c) = false := rfl
    have hwn : ((['\n'] : List Char).any fun c => !wsChar c) = false := rfl
    simp [List.filter_append, List.filter_cons, hv1, hv2, hv3, hv4, hw1, hw2, hwn, strEta]
  · intro itm nm pos hnm hposA
    refine ⟨_, rfl, ?_⟩
    rw [textSegments_eq]
    have e0 : segRun none
        "<ol itemscope itemtype=\"https://schema.org/BreadcrumbList\">\n".data
        = ([], some ['\n']) := rfl
    have e1 : segRun (some ['\n'])
        "  <li itemprop=\"itemListElement\" itemscope itemtype=\"https://schema.org/ListItem\">\n".data
        = (["\n  ".data], some ['\n']) := rfl
    have e2 : segRun (some ['\n']) "    <a itemprop=\"item\" href=\"".data
        = (["\n    ".data], none) := rfl
    have e3 : segRun none (escape_html itm).data = ([], none) :=
      segRun_none_free (escape_html itm).data (escape_no_angle itm)
    have e4 : segRun none "\">\n".data = ([], some ['\n']) := rfl
    have e5 : segRun (some ['\n']) "      <span itemprop=\"name\">".data
        = (["\n      ".data], some []) := rfl
    have e6 : ∀ w, segRun (some w) "</span>\n".data = ([w], some ['\n']) := fun w => rfl
    have e7 : segRun (some ['\n']) "    </a>\n".data
        = (["\n    ".data], some ['\n']) := rfl
    have e8 : segRun (some ['\n'])
        "    <meta itemprop=\"position\" content=\"".data
        = (["\n    ".data], none) := rfl
    have e9 : segRun none pos.data = ([], none) := segRun_none_free pos.data hposA
    have e10 : segRun (some ['\n']) "  </li>\n".data
        = (["\n  ".data], some ['\n']) := rfl
    have e11 : segRun (some ['\n']) "</ol>".data = ([['\n']], some []) := rfl
    simp only [String.data_append, segRun_append, e0, e1, e2, e3, e4, e5, e6, e7, e8,
      e9, e10, e11, segRun_esc]
    have hv1 : ((escape_html nm).data.any fun c => !wsChar c) = true := escape_visible hnm
    have hw1 : (("\n  ").data.any fun c => !wsChar c) = false := rfl
    have hw2 : (("\n    ").data.any fun c => !wsChar c) = false := rfl
    have hw3 : (("\n      ").data.any fun c => !wsChar c) = false := rfl
    have hwn : ((['\n'] : List Char).any fun c => !wsChar c) = false := rfl
    simp [List.filter_append, List.filter_cons, hv1, hw1, hw2, hw3, hwn, strEta]

theorem microdata_escaping_by_position_witness :
    (visibleStr "H&L" ∧ visibleStr "Au" ∧ visibleStr "D&s" ∧ visibleStr "B<b" ∧
      angleFree "2024-01-01" ∧ angleFree "2024-02-02") ∧
    (∃ h, generate_microdata
        (articleData "H&L" "Au" "2024-01-01" "2024-02-02" "D&s" "B<b") "Article"
        = some h ∧
      textSegments h
        = [escape_html "H&L", escape_html "Au", escape_html "D&s",
           escape_html "B<b"]) :=
  ⟨⟨by decide, by decide, by decide, by decide, by decide, by decide⟩,
    microdata_escaping_by_position.1 "H&L" "Au" "2024-01-01" "2024-02-02" "D&s" "B<b"
      (by decide) (by decide) (by decide) (by decide) (by decide) (by decide)⟩

end SchemaApp
